import Mathlib

/-!
Shallow embedding of the raw-socket HTTP capture engine
(`raw_socket_listener/listener.go`): the TCP message assembler state machine,
its dispatch and expiry logic, and the surrounding listener plumbing.
Go maps are modelled as association lists with first-match lookup; 32-bit
unsigned arithmetic is `Nat` reduced mod 2^32; Go runtime panics are modelled
with `Except`, the error carrying whatever state had been mutated before the
panic point.
-/

namespace GorRawSocket

/-! ### Association-list maps (model of Go maps) -/

def mapFind {α β : Type} [DecidableEq α] : List (α × β) → α → Option β
  | [], _ => none
  | kv :: rest, k => if k = kv.1 then some kv.2 else mapFind rest k

def mapErase {α β : Type} [DecidableEq α] (l : List (α × β)) (k : α) : List (α × β) :=
  l.filter (fun kv => decide (kv.1 ≠ k))

def mapInsert {α β : Type} [DecidableEq α] (l : List (α × β)) (k : α) (v : β) :
    List (α × β) :=
  (k, v) :: mapErase l k

/-! ### 32-bit unsigned arithmetic and byte strings -/

/-- Reduction mod 2^32: the value of a Go `uint32` expression. -/
def u32 (n : Nat) : Nat := n % 4294967296

/-- Bytes of an ASCII string literal, as Go's `[]byte("...")`. -/
def strBytes (s : String) : List Nat := s.toList.map Char.toNat

/-- Model of the Go package-level literal `bPOST = []byte("POST")`. -/
def bPOST : List Nat := strBytes "POST"

/-- Model of `bExpect100ContinueCheck = []byte("Expect: 100-continue")`. -/
def bExpect100ContinueCheck : List Nat := strBytes "Expect: 100-continue"

/-! ### Data model -/

/-- One parsed TCP segment (`TCPPacket` of the source; parsing itself is an
external collaborator). `capturedAt` is the capture timestamp. -/
structure TCPPacket where
  addr : String
  srcPort : Nat
  destPort : Nat
  seq : Nat
  ack : Nat
  data : List Nat
  capturedAt : Nat
deriving DecidableEq

/-- The `request` record of the source: `{start, ack}` stored in `respAliases`. -/
structure ReqInfo where
  start : Nat
  ack : Nat
deriving DecidableEq

/-- A TCP message being reassembled (`TCPMessage`); the struct itself lives in
`tcp_message.go`, absent from the sources, its fields are those the listener
code reads and writes, as documented in the spec's data model. -/
structure TCPMessage where
  id : String
  seq : Nat
  ack : Nat
  isIncoming : Bool
  start : Nat
  packets : List TCPPacket
  responseAck : Nat
  requestAck : Nat
  requestStart : Nat
deriving DecidableEq

/-- Modelled from the spec: `NewTCPMessage` (in the missing `tcp_message.go`)
constructs an empty message with the given identity; `start` is the timestamp
of the first packet (the Go constructor stamps the current time). -/
def NewTCPMessage (mID : String) (seq ack : Nat) (isIncoming : Bool) (start : Nat) :
    TCPMessage :=
  { id := mID, seq := seq, ack := ack, isIncoming := isIncoming, start := start,
    packets := [], responseAck := 0, requestAck := 0, requestStart := 0 }

/-- Modelled from the spec: `TCPMessage.BodySize` (missing `tcp_message.go`) is
the sum of the payload lengths of the packets of the message. -/
def TCPMessage.BodySize (m : TCPMessage) : Nat :=
  (m.packets.map (fun p => p.data.length)).sum

/-- Modelled from the spec: `TCPMessage.AddPacket` (missing `tcp_message.go`)
appends a packet to the message's ordered packet list. -/
def TCPMessage.AddPacket (m : TCPMessage) (p : TCPPacket) : TCPMessage :=
  { m with packets := m.packets ++ [p] }

/-- Modelled from the spec: `TCPMessage.IsFinished` (missing `tcp_message.go`).
Per §4.3.3 the source treats a single-packet message as immediately finished
("If message contains only single packet immediately dispatch it"); multi-packet
framing is deferred to expiry. -/
def TCPMessage.IsFinished (m : TCPMessage) : Bool :=
  m.packets.length == 1

/-- The assembler-owned state of the `Listener`: the five reassembly maps, the
outbound message channel (modelled as the list of messages pushed so far, in
order), and the configuration fields the assembler reads. -/
structure LState where
  messages : List (String × TCPMessage)
  ackAliases : List (Nat × Nat)
  seqWithData : List (Nat × Nat)
  respAliases : List (Nat × ReqInfo)
  respWithoutReq : List (Nat × String)
  output : List TCPMessage
  port : Nat
  messageExpire : Nat
deriving DecidableEq

/-! ### Listener construction and shutdown (`NewListener`, `Close`) -/

/-- Strip an optional leading sign, as `strconv.Atoi` does. -/
def signSplit (cs : List Char) : Int × List Char :=
  match cs with
  | '-' :: rest => (-1, rest)
  | '+' :: rest => (1, rest)
  | _ => (1, cs)

/-- A string is a syntactically valid decimal integer for `strconv.Atoi`:
an optional sign followed by at least one digit, nothing else. -/
def isDecimalIntString (s : String) : Bool :=
  let ds := (signSplit s.toList).2
  !ds.isEmpty && ds.all Char.isDigit

/-- Model of Go's `strconv.Atoi`: returns the parsed value and a success flag
(`true` iff no error). Syntactically invalid input yields `(0, false)`;
values out of the 64-bit int range yield the clamped bound and `false`. -/
def goAtoi (s : String) : Int × Bool :=
  if isDecimalIntString s then
    let sp := signSplit s.toList
    let n : Nat := sp.2.foldl (fun a c => a * 10 + (c.toNat - 48)) 0
    let v : Int := sp.1 * n
    if v < -(2 ^ 63) then (-(2 ^ 63), false)
    else if 2 ^ 63 - 1 < v then (2 ^ 63 - 1, false)
    else (v, true)
  else (0, false)

/-- Go's `uint16(i)` conversion of a (possibly negative) int. -/
def toUint16 (i : Int) : Nat := (i % 65536).toNat

/-- The externally visible configuration produced by `NewListener`: the parsed
listen port, whether the raw-socket reader goroutine was started, the message
expiry, and the (open) quit channel. `NewListener` returns no error value. -/
structure ListenerInit where
  port : Nat
  rawSocketStarted : Bool
  messageExpire : Nat
  quitClosed : Bool
deriving DecidableEq

/-- `NewListener`: parses the port with `strconv.Atoi`, *discarding* the error,
truncates to `uint16`, starts the raw-socket reader only when the port is
nonzero, and defaults a zero expiry to 2000 ms. -/
def NewListener (portStr : String) (expire : Nat) : ListenerInit :=
  let up := toUint16 (goAtoi portStr).1
  { port := up,
    rawSocketStarted := decide (up ≠ 0),
    messageExpire := if expire = 0 then 2000 else expire,
    quitClosed := false }

/-- Go's `close` on a channel whose closed flag is given: closing an already
closed channel is a run-time panic. -/
def goCloseChan (closed : Bool) : Except Unit Bool :=
  if closed then Except.error () else Except.ok true

/-- `Listener.Close`: closes the quit channel (no recover around it, so a
panic propagates to the caller), then closes the socket. -/
def ListenerClose (l : ListenerInit) : Except Unit ListenerInit :=
  match goCloseChan l.quitClosed with
  | Except.error e => Except.error e
  | Except.ok _ => Except.ok { l with quitClosed := true }

/-! ### Packet source (`isValidPacket`, `readRAWSocket` call site) -/

/-- `isValidPacket`: header-level filter on a raw frame. The argument is a Go
slice view of a backing array `arr` (the capacity) with length `n`. Go slice
expressions are bounded by capacity, so `buf[2:4]` and `buf[0:2]` panic only
when the capacity is below 4 and otherwise read the array's bytes — stale
bytes beyond the frame length. The index expression `buf[12]` is bounded by
the length: it panics when the port field matches and `n < 13`. A panic is
the `Except.error` case. -/
def isValidPacket (port : Nat) (arr : List Nat) (n : Nat) : Except Unit Bool :=
  if arr.length < 4 then Except.error ()
  else
    let destPort := 256 * arr.getD 2 0 + arr.getD 3 0
    let srcPort := 256 * arr.getD 0 0 + arr.getD 1 0
    if destPort = port ∨ srcPort = port then
      if n < 13 then Except.error ()
      else
        let dataOffset := arr.getD 12 0 % 256 / 16
        Except.ok (decide (dataOffset * 4 < n))
    else Except.ok false

/-- One iteration of the `readRAWSocket` loop after a successful read of `n`
bytes into the 64 KiB backing array `arr` (so in the program
`arr.length = 65536`): when `n > 0` it calls `isValidPacket` on the slice
`buf[:n]` — length `n`, capacity `arr.length` — with no panic recovery at
the call site; an accepted frame is copied out as `arr.take n`. -/
def readIteration (port : Nat) (arr : List Nat) (n : Nat) :
    Except Unit (Option (List Nat)) :=
  if 0 < n then
    match isValidPacket port arr n with
    | Except.error e => Except.error e
    | Except.ok true => Except.ok (some (arr.take n))
    | Except.ok false => Except.ok none
  else Except.ok none

/-! ### Dispatch (`dispatchMessage`)

The Go function recurses through `defer t.dispatchMessage(resp)`, which runs
after the current body (including the channel send) completes. The recursion
is bounded in reachable states; we give it explicit fuel and a wrapper that
always supplies enough (one more than the number of in-progress messages,
since each nested call only fires on a message found in `messages`). -/

/-- The back-filled response produced by the dispatch fixup: `requestAck`
receives the request's ack, `requestStart` its start time. -/
def backfill (resp m : TCPMessage) : TCPMessage :=
  { resp with requestAck := m.ack, requestStart := m.start }

def dispatchFuel : Nat → LState → TCPMessage → LState
  | 0, s, _ => s
  | fuel + 1, s, m =>
    let s1 : LState := { s with ackAliases := mapErase s.ackAliases m.ack,
                                messages := mapErase s.messages m.id }
    if m.isIncoming then
      match mapFind s1.respWithoutReq m.responseAck with
      | some respID =>
        match mapFind s1.messages respID with
        | some resp =>
          if resp.requestAck = 0 then
            let resp' : TCPMessage := backfill resp m
            let s2 : LState :=
              { s1 with messages := mapInsert s1.messages respID resp' }
            let s3 : LState := { s2 with output := s2.output ++ [m] }
            if resp'.IsFinished then dispatchFuel fuel s3 resp' else s3
          else { s1 with output := s1.output ++ [m] }
        | none => { s1 with output := s1.output ++ [m] }
      | none => { s1 with output := s1.output ++ [m] }
    else
      let s2 : LState :=
        { s1 with respAliases := mapErase s1.respAliases m.ack,
                  respWithoutReq := mapErase s1.respWithoutReq m.ack }
      if m.requestAck = 0 then s2
      else { s2 with output := s2.output ++ [m] }

def dispatchMessage (s : LState) (m : TCPMessage) : LState :=
  dispatchFuel (s.messages.length + 1) s m

/-! ### Packet ingest (`processTCPPacket`)

The current message is a Go pointer shared with the `messages` map entry at
key `mID`; we carry its value explicitly and mirror every mutation into the
map whenever the entry is still present (`syncCur`). -/

/-- Mirror the current message value into its map slot, when still present. -/
def syncCur (s : LState) (mID : String) (m : TCPMessage) : LState :=
  match mapFind s.messages mID with
  | some _ => { s with messages := mapInsert s.messages mID m }
  | none => s

/-- Step 2 of ingest: the `seqWithData`-triggered ack rewrite. -/
def seqDataStep (s : LState) (p : TCPPacket) : LState × TCPPacket :=
  match mapFind s.seqWithData p.seq with
  | some parentAck =>
    ({ s with ackAliases := mapInsert s.ackAliases p.ack parentAck,
              seqWithData := mapErase s.seqWithData p.seq },
     { p with ack := parentAck })
  | none => (s, p)

/-- Step 3 of ingest: resolve `ackAliases`. -/
def aliasStep (s : LState) (p : TCPPacket) : TCPPacket :=
  match mapFind s.ackAliases p.ack with
  | some canonAck => { p with ack := canonAck }
  | none => p

/-- The message identity `packet.Addr.String() + Itoa(DestPort) + Itoa(Ack)`. -/
def messageID (p : TCPPacket) : String :=
  p.addr ++ toString p.destPort ++ toString p.ack

/-- Step 5 of ingest: look the message up, creating and registering it when
absent (copying the response request, or indexing in `respWithoutReq`).
Returns the state and the current message value. -/
def findCreateStep (s : LState) (p : TCPPacket) (isIncoming : Bool)
    (responseRequest : Option ReqInfo) : LState × TCPMessage :=
  let mID := messageID p
  match mapFind s.messages mID with
  | some m => (s, m)
  | none =>
    let m0 := NewTCPMessage mID p.seq p.ack isIncoming p.capturedAt
    let m1 := if isIncoming then m0 else
      match responseRequest with
      | some rr => { m0 with requestStart := rr.start, requestAck := rr.ack }
      | none => m0
    let s1 : LState := { s with messages := mapInsert s.messages mID m1 }
    let s2 : LState := if isIncoming then s1 else
      match responseRequest with
      | some _ => s1
      | none => { s1 with respWithoutReq := mapInsert s1.respWithoutReq p.ack mID }
    (s2, m1)

/-- The out-of-order scan of step 6c: iterate over a snapshot of the message
keys; each entry still present whose `seq` equals the continuation sequence
gets its ack aliased to the packet's, its packets appended to the current
message, and its map entry deleted. When the visited key is the current
message itself, the Go range reads the live object through the pointer (the
slice header of its packet list is snapshotted by `range`, so the list is
appended to itself), and the delete removes the current message's own entry. -/
def mergeLoop (keys : List String) (s : LState) (mID : String) (mcur : TCPMessage)
    (seqv pAck : Nat) : LState × TCPMessage :=
  match keys with
  | [] => (s, mcur)
  | id :: rest =>
    match mapFind s.messages id with
    | none => mergeLoop rest s mID mcur seqv pAck
    | some mEntry =>
      let mv := if id = mID then mcur else mEntry
      if mv.seq = seqv then
        let s1 : LState := { s with ackAliases := mapInsert s.ackAliases mv.ack pAck }
        let mcur1 : TCPMessage := { mcur with packets := mcur.packets ++ mv.packets }
        let s2 := syncCur s1 mID mcur1
        let s3 : LState := { s2 with messages := mapErase s2.messages id }
        mergeLoop rest s3 mID mcur1 seqv pAck
      else mergeLoop rest s mID mcur seqv pAck

/-- Step 6 of ingest: `Expect: 100-continue` handling. The inner slice
`packet.Data[len-24 : len-4]` panics (the `Except.error` case) when the
payload starts with `POST` but is shorter than 24 bytes; on a match it records
`seqWithData`, runs the out-of-order merge scan, and strips the header bytes
`[len-24, len-2)` from the payload in place. -/
def expect100Step (s : LState) (mID : String) (mcur : TCPMessage) (p : TCPPacket) :
    Except Unit (LState × TCPMessage × TCPPacket) :=
  if 4 < p.data.length ∧ p.data.take 4 = bPOST then
    if p.data.length < 24 then Except.error ()
    else
      if (p.data.drop (p.data.length - 24)).take 20 = bExpect100ContinueCheck then
        let seqv := u32 (p.seq + p.data.length)
        let s1 : LState := { s with seqWithData := mapInsert s.seqWithData seqv p.ack }
        let sm := mergeLoop (s1.messages.map Prod.fst) s1 mID mcur seqv p.ack
        let p2 : TCPPacket :=
          { p with data := p.data.take (p.data.length - 24) ++
                           p.data.drop (p.data.length - 2) }
        Except.ok (sm.1, sm.2, p2)
      else Except.ok (s, mcur, p)
  else Except.ok (s, mcur, p)

/-- Step 7 of ingest for an incoming message: delete the stale alias when
the message already has packets, record the new one, store `responseAck`. -/
def respAckStepInc (s : LState) (mID : String) (mcur : TCPMessage) (p : TCPPacket) :
    LState × TCPMessage :=
  let s1 : LState :=
    if 0 < mcur.packets.length then
      { s with respAliases := mapErase s.respAliases mcur.responseAck }
    else s
  let responseAck := u32 (p.seq + mcur.BodySize + p.data.length)
  let s2 : LState :=
    { s1 with respAliases :=
        mapInsert s1.respAliases responseAck ⟨mcur.start, mcur.ack⟩ }
  let mcur2 : TCPMessage := { mcur with responseAck := responseAck }
  (syncCur s2 mID mcur2, mcur2)

/-- Step 7 of ingest: response-ack bookkeeping, incoming only. -/
def respAckStep (s : LState) (mID : String) (mcur : TCPMessage) (p : TCPPacket)
    (isIncoming : Bool) : LState × TCPMessage :=
  if isIncoming then respAckStepInc s mID mcur p else (s, mcur)

/-- Step 8 of ingest: `message.AddPacket(packet)`. -/
def addPacketStep (s : LState) (mID : String) (mcur : TCPMessage) (p : TCPPacket) :
    LState × TCPMessage :=
  let m2 := mcur.AddPacket p
  (syncCur s mID m2, m2)

/-- Steps 7-9 of ingest: response-ack bookkeeping, packet append, and the
immediate dispatch of a finished message. -/
def ingestTail (s : LState) (mID : String) (mcur : TCPMessage) (p : TCPPacket)
    (isIncoming : Bool) : LState :=
  let rb := respAckStep s mID mcur p isIncoming
  let ap := addPacketStep rb.1 mID rb.2 p
  if ap.2.IsFinished then dispatchMessage ap.1 ap.2 else ap.1

/-- Steps 5-9 of ingest, fed with the rewritten packet: message
lookup/create, `Expect: 100-continue` handling (whose panic is recovered,
keeping the state mutated so far), and the tail steps. -/
def ingestCore (s1 : LState) (p2 : TCPPacket) (isIncoming : Bool)
    (rr : Option ReqInfo) : LState :=
  let fc := findCreateStep s1 p2 isIncoming rr
  match expect100Step fc.1 (messageID p2) fc.2 p2 with
  | Except.error _ => fc.1
  | Except.ok (s3, m3, p3) => ingestTail s3 (messageID p2) m3 p3 isIncoming

/-- `processTCPPacket`: one packet ingest. The deferred `recover` catches a
panic anywhere in the body, so a panic leaves exactly the mutations already
performed (the `Except.error` state) and the engine carries on. -/
def processTCPPacket (s : LState) (p0 : TCPPacket) : LState :=
  let isIncoming := decide (p0.destPort = s.port)
  let sp := seqDataStep s p0
  let p2 := aliasStep sp.1 sp.2
  let responseRequest :=
    if isIncoming then none else mapFind sp.1.respAliases p2.ack
  ingestCore sp.1 p2 isIncoming responseRequest

/-! ### The assembler event loop (`listen`): packet events and expiry ticks -/

/-- The expiry sweep of one `gcTicker` tick at time `now`: range over the
message map (a snapshot of keys, re-checking presence, since `dispatchMessage`
deletes entries mid-iteration) and dispatch every message whose residency has
reached `messageExpire`. `now.Sub(start) >= expire` on Go times is
`start + expire ≤ now` on `Nat` timestamps. -/
def tickFold (keys : List String) (now : Nat) (s : LState) : LState :=
  match keys with
  | [] => s
  | id :: rest =>
    match mapFind s.messages id with
    | some m =>
      if m.start + s.messageExpire ≤ now then
        tickFold rest now (dispatchMessage s m)
      else tickFold rest now s
    | none => tickFold rest now s

def tickSweep (now : Nat) (s : LState) : LState :=
  tickFold (s.messages.map Prod.fst) now s

/-- One event consumed by the assembler's `select`: a packet from
`packetsChan` or a `gcTicker` tick. -/
inductive LEvent : Type where
  | ingest (p : TCPPacket)
  | tick
deriving DecidableEq

/-- One step of the `listen` loop at a given wall-clock time: a packet is
processed (its capture timestamp is the current time), or a tick sweeps. -/
def stepEvent (s : LState) (e : Nat × LEvent) : LState :=
  match e.2 with
  | LEvent.ingest p => processTCPPacket s { p with capturedAt := e.1 }
  | LEvent.tick => tickSweep e.1 s

/-- Run a timed event trace through the `listen` loop. -/
def runTrace (s : LState) : List (Nat × LEvent) → LState
  | [] => s
  | e :: rest => runTrace (stepEvent s e) rest

/-! ### Invariants and sample inputs -/

/-- The empty assembler state of a fresh listener. -/
def initialState (port expire : Nat) : LState :=
  { messages := [], ackAliases := [], seqWithData := [], respAliases := [],
    respWithoutReq := [], output := [], port := port, messageExpire := expire }

/-- Reachable-state invariant: every in-progress message is stored in
`messages` under its own id (all the source's inserts use the message's
identity as the key). -/
def WellKeyed (s : LState) : Prop :=
  ∀ k m, mapFind s.messages k = some m → m.id = k

/-- Every in-progress message of `s` was started less than `e` before `t`. -/
def StartsBound (t e : Nat) (s : LState) : Prop :=
  ∀ k m, mapFind s.messages k = some m → t < m.start + e

/-- A sample packet from peer 1.2.3.4:5000 towards listen port 80. -/
def pktW (seqv ackv : Nat) (dat : List Nat) : TCPPacket :=
  { addr := "1.2.3.4", srcPort := 5000, destPort := 80, seq := seqv, ack := ackv,
    data := dat, capturedAt := 0 }

/-- A `POST` payload of 5 bytes: `packet.Data[len-24:len-4]` slices out of
range, the Go runtime panics. -/
def c7packet : TCPPacket := pktW 10 20 (strBytes "POSTX")

/-- A fresh listener state on port 80 with the default 2000 ms expiry. -/
def c7state : LState := initialState 80 2000

/-- Sample outgoing message for the dispatch claims. -/
def c1msg : TCPMessage :=
  { id := "X", seq := 300, ack := 118, isIncoming := false, start := 3,
    packets := [pktW 300 118 [1, 2]], responseAck := 0, requestAck := 5,
    requestStart := 1 }

/-- Sample incoming request message whose response arrived first. -/
def c3msg : TCPMessage :=
  { id := "A", seq := 100, ack := 200, isIncoming := true, start := 7,
    packets := [pktW 100 200 [1]], responseAck := 118, requestAck := 0,
    requestStart := 0 }

/-- Sample not-yet-paired outgoing response (`requestAck == 0`). -/
def c3resp : TCPMessage :=
  { id := "R", seq := 200, ack := 118, isIncoming := false, start := 9,
    packets := [pktW 200 118 [4, 5]], responseAck := 0, requestAck := 0,
    requestStart := 0 }

/-- State for the C3 witness: the response is in `messages`, indexed in
`respWithoutReq` under the request's `responseAck`. -/
def c3state : LState :=
  { initialState 80 2000 with
      messages := [("R", c3resp), ("A", c3msg)],
      respWithoutReq := [(118, "R")] }

/-- Incoming message with one 2-byte packet, for the C2 witness. -/
def c2msg : TCPMessage :=
  { id := "A", seq := 100, ack := 200, isIncoming := true, start := 5,
    packets := [pktW 100 200 [7, 8]], responseAck := 999, requestAck := 0,
    requestStart := 0 }

/-- State for the C2 witness: the stale alias entry at the previous
`responseAck` is present. -/
def c2state : LState :=
  { initialState 80 2000 with
      messages := [("A", c2msg)],
      respAliases := [(999, ⟨5, 200⟩), (555, ⟨1, 2⟩)] }

/-- A full `POST` header payload ending in `Expect: 100-continue\r\n\r\n`. -/
def expectData : List Nat := strBytes "POST / HTTP/1.1\r\nExpect: 100-continue\r\n\r\n"

/-- The `Expect: 100-continue` header packet of scenarios S2/S3. -/
def c5packet : TCPPacket := pktW 1000 500 expectData

/-- The standalone continuation message that arrived before its header
(scenario S3): its `seq` is the header packet's `seq + len(data)`. -/
def c5cont : TCPMessage :=
  { id := "B", seq := 1041, ack := 501, isIncoming := true, start := 2,
    packets := [pktW 1041 501 [9, 9, 9]], responseAck := 0, requestAck := 0,
    requestStart := 0 }

/-- State for the C5 witness: the continuation is an in-progress message. -/
def c5state : LState :=
  { initialState 80 2000 with messages := [("B", c5cont)] }

/-- Fresh message the header packet is being assembled into. -/
def c5cur : TCPMessage := NewTCPMessage "A" 1000 500 true 0

/-- Trace for the C6 witness: a panicking ingest leaves an empty in-progress
message at t = 0 and a tick fires at t = 5, before the 10-tick expiry. -/
def c6trace : List (Nat × LEvent) :=
  [(0, LEvent.ingest c7packet), (5, LEvent.tick)]

/-- Expired singleton state for the C6 witness of the sweep conjunct. -/
def c6old : TCPMessage :=
  { id := "id1", seq := 1, ack := 2, isIncoming := true, start := 0,
    packets := [pktW 1 2 [1], pktW 2 2 [2]], responseAck := 0, requestAck := 0,
    requestStart := 0 }

/-- State holding one expired message. -/
def c6state : LState :=
  { initialState 80 10 with messages := [("id1", c6old)] }

/-- The empty message left behind in `messages` by the panicking ingest of
`c7packet` (its identity is `"1.2.3.4" + "80" + "20"`). -/
def c6left : TCPMessage := NewTCPMessage "1.2.3.48020" 10 20 true 0

/-- The state after step 6b records the continuation trigger in
`seqWithData` (used to phrase the C4/C5 theorems). -/
def seqWithDataState (s : LState) (p : TCPPacket) : LState :=
  { s with seqWithData :=
      mapInsert s.seqWithData (u32 (p.seq + p.data.length)) p.ack }

/-! ## Theorems -/

/-! ### Association-list map lemmas -/

theorem mapFind_erase {α β : Type} [DecidableEq α] (l : List (α × β)) (k k' : α) :
    mapFind (mapErase l k) k' = if k' = k then none else mapFind l k' := by
  induction l with
  | nil => simp [mapErase, mapFind]
  | cons kv rest ih =>
    by_cases hk : kv.1 = k
    · have hf : mapErase (kv :: rest) k = mapErase rest k := by
        simp [mapErase, List.filter_cons, hk]
      rw [hf, ih]
      by_cases h' : k' = k
      · simp [h']
      · have hne : k' ≠ kv.1 := fun h => h' (h.trans hk)
        simp [h', mapFind, hne]
    · have hf : mapErase (kv :: rest) k = kv :: mapErase rest k := by
        simp [mapErase, List.filter_cons, hk]
      rw [hf]
      by_cases h2 : k' = kv.1
      · have h' : k' ≠ k := by rw [h2]; exact hk
        simp [mapFind, h2, h', hk]
      · simp [mapFind, h2, ih]

theorem mapFind_erase_self {α β : Type} [DecidableEq α] (l : List (α × β)) (k : α) :
    mapFind (mapErase l k) k = none := by
  simp [mapFind_erase]

theorem mapFind_erase_ne {α β : Type} [DecidableEq α] (l : List (α × β)) {k k' : α}
    (h : k' ≠ k) : mapFind (mapErase l k) k' = mapFind l k' := by
  simp [mapFind_erase, h]

theorem mapFind_insert {α β : Type} [DecidableEq α] (l : List (α × β)) (k k' : α) (v : β) :
    mapFind (mapInsert l k v) k' = if k' = k then some v else mapFind l k' := by
  by_cases h : k' = k
  · simp [mapInsert, mapFind, h]
  · simp [mapInsert, mapFind, h, mapFind_erase_ne l h]

theorem mapFind_insert_self {α β : Type} [DecidableEq α] (l : List (α × β)) (k : α) (v : β) :
    mapFind (mapInsert l k v) k = some v := by
  simp [mapFind_insert]

theorem mapFind_insert_ne {α β : Type} [DecidableEq α] (l : List (α × β)) {k k' : α} (v : β)
    (h : k' ≠ k) : mapFind (mapInsert l k v) k' = mapFind l k' := by
  simp [mapFind_insert, h]

theorem mapFind_insert_self_inv {α β : Type} [DecidableEq α] {l : List (α × β)}
    {k : α} {v w : β} (h : mapFind (mapInsert l k v) k = some w) : w = v := by
  rw [mapFind_insert_self] at h
  exact (Option.some.inj h).symm

theorem mapFind_insert_ne_inv {α β : Type} [DecidableEq α] {l : List (α × β)}
    {k k' : α} {v w : β} (hne : k' ≠ k)
    (h : mapFind (mapInsert l k v) k' = some w) : mapFind l k' = some w := by
  rwa [mapFind_insert_ne _ _ hne] at h

theorem mapFind_mem {α β : Type} [DecidableEq α] {l : List (α × β)} {k : α} {v : β}
    (h : mapFind l k = some v) : (k, v) ∈ l := by
  induction l with
  | nil => simp [mapFind] at h
  | cons kv rest ih =>
    by_cases hk : k = kv.1
    · rw [mapFind, if_pos hk] at h
      have hv : kv.2 = v := Option.some.inj h
      subst hk
      rw [← hv]
      exact List.mem_cons_self _ _
    · rw [mapFind, if_neg hk] at h
      exact List.mem_cons_of_mem _ (ih h)

/-! ### `syncCur` field lemmas -/

theorem syncCur_respAliases (s : LState) (mID : String) (m : TCPMessage) :
    (syncCur s mID m).respAliases = s.respAliases := by
  unfold syncCur
  cases mapFind s.messages mID <;> rfl

theorem syncCur_ackAliases (s : LState) (mID : String) (m : TCPMessage) :
    (syncCur s mID m).ackAliases = s.ackAliases := by
  unfold syncCur
  cases mapFind s.messages mID <;> rfl

theorem syncCur_seqWithData (s : LState) (mID : String) (m : TCPMessage) :
    (syncCur s mID m).seqWithData = s.seqWithData := by
  unfold syncCur
  cases mapFind s.messages mID <;> rfl

theorem syncCur_respWithoutReq (s : LState) (mID : String) (m : TCPMessage) :
    (syncCur s mID m).respWithoutReq = s.respWithoutReq := by
  unfold syncCur
  cases mapFind s.messages mID <;> rfl

theorem syncCur_output (s : LState) (mID : String) (m : TCPMessage) :
    (syncCur s mID m).output = s.output := by
  unfold syncCur
  cases mapFind s.messages mID <;> rfl

theorem syncCur_port (s : LState) (mID : String) (m : TCPMessage) :
    (syncCur s mID m).port = s.port := by
  unfold syncCur
  cases mapFind s.messages mID <;> rfl

theorem syncCur_messageExpire (s : LState) (mID : String) (m : TCPMessage) :
    (syncCur s mID m).messageExpire = s.messageExpire := by
  unfold syncCur
  cases mapFind s.messages mID <;> rfl

theorem syncCur_messages_ne (s : LState) (mID : String) (m : TCPMessage) {k : String}
    (h : k ≠ mID) : mapFind (syncCur s mID m).messages k = mapFind s.messages k := by
  unfold syncCur
  cases mapFind s.messages mID with
  | none => rfl
  | some m0 => simp [mapFind_insert_ne _ _ h]

/-! ### Ingest step lemmas -/

theorem seqDataStep_data (s : LState) (p : TCPPacket) :
    (seqDataStep s p).2.data = p.data := by
  unfold seqDataStep
  cases mapFind s.seqWithData p.seq <;> rfl

theorem seqDataStep_seq (s : LState) (p : TCPPacket) :
    (seqDataStep s p).2.seq = p.seq := by
  unfold seqDataStep
  cases mapFind s.seqWithData p.seq <;> rfl

theorem seqDataStep_capturedAt (s : LState) (p : TCPPacket) :
    (seqDataStep s p).2.capturedAt = p.capturedAt := by
  unfold seqDataStep
  cases mapFind s.seqWithData p.seq <;> rfl

theorem seqDataStep_messages (s : LState) (p : TCPPacket) :
    (seqDataStep s p).1.messages = s.messages := by
  unfold seqDataStep
  cases mapFind s.seqWithData p.seq <;> rfl

theorem seqDataStep_respAliases (s : LState) (p : TCPPacket) :
    (seqDataStep s p).1.respAliases = s.respAliases := by
  unfold seqDataStep
  cases mapFind s.seqWithData p.seq <;> rfl

theorem seqDataStep_output (s : LState) (p : TCPPacket) :
    (seqDataStep s p).1.output = s.output := by
  unfold seqDataStep
  cases mapFind s.seqWithData p.seq <;> rfl

theorem seqDataStep_seqWithData_or (s : LState) (p : TCPPacket) :
    (seqDataStep s p).1.seqWithData = s.seqWithData ∨
    (seqDataStep s p).1.seqWithData = mapErase s.seqWithData p.seq := by
  unfold seqDataStep
  cases mapFind s.seqWithData p.seq with
  | none => exact Or.inl rfl
  | some parentAck => exact Or.inr rfl

theorem aliasStep_data (s : LState) (p : TCPPacket) :
    (aliasStep s p).data = p.data := by
  unfold aliasStep
  cases mapFind s.ackAliases p.ack <;> rfl

theorem aliasStep_seq (s : LState) (p : TCPPacket) :
    (aliasStep s p).seq = p.seq := by
  unfold aliasStep
  cases mapFind s.ackAliases p.ack <;> rfl

theorem aliasStep_capturedAt (s : LState) (p : TCPPacket) :
    (aliasStep s p).capturedAt = p.capturedAt := by
  unfold aliasStep
  cases mapFind s.ackAliases p.ack <;> rfl

theorem findCreateStep_output (s : LState) (p : TCPPacket) (inc : Bool)
    (rr : Option ReqInfo) : (findCreateStep s p inc rr).1.output = s.output := by
  unfold findCreateStep
  dsimp only
  cases hf : mapFind s.messages (messageID p) with
  | some m => rfl
  | none => cases inc <;> cases rr <;> rfl

theorem findCreateStep_respAliases (s : LState) (p : TCPPacket) (inc : Bool)
    (rr : Option ReqInfo) : (findCreateStep s p inc rr).1.respAliases = s.respAliases := by
  unfold findCreateStep
  dsimp only
  cases hf : mapFind s.messages (messageID p) with
  | some m => rfl
  | none => cases inc <;> cases rr <;> rfl

theorem findCreateStep_seqWithData (s : LState) (p : TCPPacket) (inc : Bool)
    (rr : Option ReqInfo) : (findCreateStep s p inc rr).1.seqWithData = s.seqWithData := by
  unfold findCreateStep
  dsimp only
  cases hf : mapFind s.messages (messageID p) with
  | some m => rfl
  | none => cases inc <;> cases rr <;> rfl

theorem findCreateStep_messages_find (s : LState) (p : TCPPacket) (inc : Bool)
    (rr : Option ReqInfo) (id : String) (m : TCPMessage)
    (h : mapFind (findCreateStep s p inc rr).1.messages id = some m) :
    mapFind s.messages id = some m ∨ (m.packets = [] ∧ m.start = p.capturedAt) := by
  unfold findCreateStep at h
  dsimp only at h
  cases hf : mapFind s.messages (messageID p) with
  | some m0 =>
    rw [hf] at h
    exact Or.inl h
  | none =>
    rw [hf] at h
    by_cases hid : id = messageID p
    · subst hid
      right
      cases inc <;> cases rr <;>
        (rw [mapFind_insert_self_inv h]; exact ⟨rfl, rfl⟩)
    · left
      cases inc <;> cases rr <;> exact mapFind_insert_ne_inv hid h

/-- The inner `Expect: 100-continue` slice panics whenever the payload starts
with `POST` but is shorter than 24 bytes. -/
theorem expect100Step_panic (s : LState) (mID : String) (m : TCPMessage) (p : TCPPacket)
    (h1 : 4 < p.data.length) (h2 : p.data.take 4 = bPOST) (h3 : p.data.length < 24) :
    expect100Step s mID m p = Except.error () := by
  simp [expect100Step, h1, h2, h3]

/-- The merge loop of step 6c touches only `messages`, `ackAliases` and the
current message. -/
theorem mergeLoop_fields (keys : List String) (s : LState) (mID : String)
    (mcur : TCPMessage) (seqv pAck : Nat) :
    (mergeLoop keys s mID mcur seqv pAck).1.seqWithData = s.seqWithData ∧
    (mergeLoop keys s mID mcur seqv pAck).1.respAliases = s.respAliases ∧
    (mergeLoop keys s mID mcur seqv pAck).1.respWithoutReq = s.respWithoutReq ∧
    (mergeLoop keys s mID mcur seqv pAck).1.output = s.output ∧
    (mergeLoop keys s mID mcur seqv pAck).1.port = s.port ∧
    (mergeLoop keys s mID mcur seqv pAck).1.messageExpire = s.messageExpire := by
  induction keys generalizing s mcur with
  | nil => exact ⟨rfl, rfl, rfl, rfl, rfl, rfl⟩
  | cons id rest ih =>
    unfold mergeLoop
    cases hf : mapFind s.messages id with
    | none => exact ih s mcur
    | some mEntry =>
      dsimp only
      by_cases hseq : (if id = mID then mcur else mEntry).seq = seqv
      · rw [if_pos hseq]
        refine ⟨(ih _ _).1.trans ?_, (ih _ _).2.1.trans ?_, (ih _ _).2.2.1.trans ?_,
          (ih _ _).2.2.2.1.trans ?_, (ih _ _).2.2.2.2.1.trans ?_,
          (ih _ _).2.2.2.2.2.trans ?_⟩ <;>
        simp [syncCur_seqWithData, syncCur_respAliases, syncCur_respWithoutReq,
          syncCur_output, syncCur_port, syncCur_messageExpire]
      · rw [if_neg hseq]
        exact ih s mcur

/-! ### C1: outgoing dispatch pairs or drops -/

/-- C1: every outgoing message passed to `dispatchMessage` has its
`respAliases` and `respWithoutReq` entries (keyed by its ack) removed, and is
pushed on the output channel exactly when `requestAck ≠ 0`; with
`requestAck = 0` it is dropped, never delivered to the consumer. -/
theorem c1_outgoing_dispatch (s : LState) (m : TCPMessage)
    (hout : m.isIncoming = false) :
    mapFind (dispatchMessage s m).respAliases m.ack = none ∧
    mapFind (dispatchMessage s m).respWithoutReq m.ack = none ∧
    (m.requestAck = 0 → (dispatchMessage s m).output = s.output) ∧
    (m.requestAck ≠ 0 → (dispatchMessage s m).output = s.output ++ [m]) := by
  unfold dispatchMessage
  rw [dispatchFuel]
  by_cases hreq : m.requestAck = 0 <;>
    simp [hout, hreq, mapFind_erase_self]

/-- Witness for C1 on a concrete paired outgoing message. -/
theorem c1_witness :
    mapFind (dispatchMessage c3state c1msg).respAliases 118 = none ∧
    mapFind (dispatchMessage c3state c1msg).respWithoutReq 118 = none ∧
    (dispatchMessage c3state c1msg).output = [c1msg] := by
  have h := c1_outgoing_dispatch c3state c1msg (by decide)
  exact ⟨h.1, h.2.1, h.2.2.2 (by decide)⟩

/-! ### C8: Close is not idempotent -/

/-- C8 counterexample: a second `Close` panics — `close(t.quit)` on the
already-closed quit channel is a Go run-time panic, so `Close` is not
idempotent as claimed. -/
theorem c8_counterexample :
    ListenerClose (NewListener "80" 0) =
      Except.ok { NewListener "80" 0 with quitClosed := true } ∧
    ListenerClose { NewListener "80" 0 with quitClosed := true } =
      Except.error () := by
  exact ⟨rfl, rfl⟩

/-- C8 amended: the first `Close` signals shutdown, but a second `Close`
panics by closing the already-closed quit channel. -/
theorem c8_close_second_panics (l : ListenerInit) :
    (l.quitClosed = false → ListenerClose l = Except.ok { l with quitClosed := true }) ∧
    (l.quitClosed = true → ListenerClose l = Except.error ()) := by
  constructor <;> intro h <;> simp [ListenerClose, goCloseChan, h]

/-- Witness for the amended C8 on a fresh listener. -/
theorem c8_witness :
    ListenerClose (NewListener "80" 0) =
      Except.ok { NewListener "80" 0 with quitClosed := true } ∧
    ListenerClose { NewListener "80" 0 with quitClosed := true } =
      Except.error () := by
  refine ⟨(c8_close_second_panics (NewListener "80" 0)).1 (by decide), ?_⟩
  exact (c8_close_second_panics { NewListener "80" 0 with quitClosed := true }).2 (by decide)

/-! ### C9: invalid port strings behave as port "0" -/

/-- C9: a port string that is not a valid decimal integer is silently treated
as the test-mode port `0`: the `strconv.Atoi` error is discarded, the listen
port becomes 0, the raw-socket reader is never started and no error reaches
the caller (`NewListener` returns only the listener). -/
theorem c9_invalid_port_ignored (portStr : String) (expire : Nat)
    (h : isDecimalIntString portStr = false) :
    NewListener portStr expire = NewListener "0" expire ∧
    (NewListener portStr expire).port = 0 ∧
    (NewListener portStr expire).rawSocketStarted = false := by
  have hparse : goAtoi portStr = (0, false) := by
    unfold goAtoi
    simp [h]
  have h0 : goAtoi "0" = (0, true) := by decide
  refine ⟨?_, ?_, ?_⟩ <;> simp [NewListener, hparse, h0, toUint16]

/-- Witness for C9 at the concrete invalid port string "abc". -/
theorem c9_witness :
    NewListener "abc" 7 = NewListener "0" 7 ∧
    (NewListener "abc" 7).port = 0 ∧
    (NewListener "abc" 7).rawSocketStarted = false :=
  c9_invalid_port_ignored "abc" 7 (by decide)

/-! ### C10: isValidPacket is partial and unprotected -/

/-- C10 counterexample: a 2-byte frame at the `readRAWSocket` call site does
NOT panic — Go slice expressions are capacity-bounded, and the backing array
there has capacity 65536, so `buf[2:4]` succeeds and reads stale (here zero)
bytes; with no port match the frame is merely rejected. This refutes the
claim's "panics on every buffer shorter than 4 bytes". -/
theorem c10_counterexample :
    isValidPacket 80 (List.replicate 65536 0) 2 = Except.ok false ∧
    readIteration 80 (List.replicate 65536 0) 2 = Except.ok none := by
  have h4 : ¬ (List.replicate 65536 (0 : Nat)).length < 4 := by
    rw [List.length_replicate]
    norm_num
  have hval : isValidPacket 80 (List.replicate 65536 0) 2 = Except.ok false := by
    simp only [isValidPacket]
    rw [if_neg h4,
      show (List.replicate 65536 (0 : Nat)).getD 2 0 = 0 from rfl,
      show (List.replicate 65536 (0 : Nat)).getD 3 0 = 0 from rfl,
      show (List.replicate 65536 (0 : Nat)).getD 0 0 = 0 from rfl,
      show (List.replicate 65536 (0 : Nat)).getD 1 0 = 0 from rfl,
      if_neg (by norm_num : ¬ (256 * 0 + 0 = 80 ∨ 256 * 0 + 0 = 80))]
  refine ⟨hval, ?_⟩
  have hstep : readIteration 80 (List.replicate 65536 0) 2 =
      match isValidPacket 80 (List.replicate 65536 0) 2 with
      | Except.error e => Except.error e
      | Except.ok true => Except.ok (some ((List.replicate 65536 0).take 2))
      | Except.ok false => Except.ok none := by
    simp only [readIteration]
    rw [if_pos (by norm_num : (0 : Nat) < 2)]
  rw [hstep, hval]

/-- C10 amended: `isValidPacket` is partial, but only through the
length-bounded index `buf[12]`: it panics on every frame of length at most
12 bytes (in particular every 4-to-12-byte frame) whose source or destination
port field — read capacity-bounded from the backing array, hence from stale
bytes when the frame is shorter than 4 bytes — equals the listen port.
Frames whose port fields do not match never panic, whatever their length
(the slice expressions `buf[2:4]`/`buf[0:2]` are capacity-bounded and the
call-site capacity is 65536). `readRAWSocket` calls it on any frame with
`n > 0` and that call site has no panic recovery, so the panic propagates. -/
theorem c10_isValidPacket_panics (port : Nat) (arr : List Nat) (n : Nat) :
    (4 ≤ arr.length → n ≤ 12 →
      (256 * arr.getD 2 0 + arr.getD 3 0 = port ∨
       256 * arr.getD 0 0 + arr.getD 1 0 = port) →
      isValidPacket port arr n = Except.error ()) ∧
    (4 ≤ arr.length →
      ¬ (256 * arr.getD 2 0 + arr.getD 3 0 = port ∨
         256 * arr.getD 0 0 + arr.getD 1 0 = port) →
      isValidPacket port arr n = Except.ok false) ∧
    (0 < n → isValidPacket port arr n = Except.error () →
      readIteration port arr n = Except.error ()) := by
  refine ⟨?_, ?_, ?_⟩
  · intro h1 h2 h3
    have h4 : ¬ arr.length < 4 := Nat.not_lt.mpr h1
    have h13 : n < 13 := Nat.lt_succ_of_le h2
    simp only [isValidPacket]
    rw [if_neg h4, if_pos h3, if_pos h13]
  · intro h1 h3
    have h4 : ¬ arr.length < 4 := Nat.not_lt.mpr h1
    simp only [isValidPacket]
    rw [if_neg h4, if_neg h3]
  · intro hn he
    simp [readIteration, hn, he]

/-- Witness for the amended C10: a 4-byte frame with matching source port
panics at `buf[12]`, a non-matching short frame is rejected without panic,
and the unprotected read-loop call site propagates the panic. -/
theorem c10_witness :
    isValidPacket 80 [0, 80, 0, 80] 4 = Except.error () ∧
    isValidPacket 80 [0, 0, 0, 0] 2 = Except.ok false ∧
    readIteration 80 [0, 80, 0, 80] 4 = Except.error () := by
  refine ⟨(c10_isValidPacket_panics 80 [0, 80, 0, 80] 4).1 (by decide) (by decide)
      (by decide),
    (c10_isValidPacket_panics 80 [0, 0, 0, 0] 2).2.1 (by decide) (by decide), ?_⟩
  exact (c10_isValidPacket_panics 80 [0, 80, 0, 80] 4).2.2 (by decide) (by rfl)

/-! ### C2: response-ack bookkeeping -/

/-- C2: for an incoming packet `p` ingested into message `m`, the bookkeeping
block sets `m.responseAck` to `p.seq + B + len(p.data)` in wrapping 32-bit
unsigned arithmetic, where `B` is the sum of the payload lengths of the
packets already in `m` before `p` is appended; it stores
`respAliases[responseAck] = {start := m.start, ack := m.ack}`; and when `m`
already held at least one packet it first deletes the alias entry at the
previous `m.responseAck`, every other entry being left unchanged. -/
theorem c2_response_ack (s : LState) (mID : String) (m : TCPMessage) (p : TCPPacket) :
    (respAckStep s mID m p true).2.responseAck =
      u32 (p.seq + (m.packets.map (fun q => q.data.length)).sum + p.data.length) ∧
    mapFind (respAckStep s mID m p true).1.respAliases
      (u32 (p.seq + (m.packets.map (fun q => q.data.length)).sum + p.data.length)) =
      some ⟨m.start, m.ack⟩ ∧
    (∀ k, k ≠ u32 (p.seq + (m.packets.map (fun q => q.data.length)).sum + p.data.length) →
      mapFind (respAckStep s mID m p true).1.respAliases k =
        if m.packets ≠ [] ∧ k = m.responseAck then none
        else mapFind s.respAliases k) := by
  have hstep : respAckStep s mID m p true = respAckStepInc s mID m p := if_pos rfl
  have hra : (respAckStepInc s mID m p).1.respAliases =
      mapInsert (if 0 < m.packets.length then mapErase s.respAliases m.responseAck
        else s.respAliases)
        (u32 (p.seq + m.BodySize + p.data.length)) ⟨m.start, m.ack⟩ := by
    unfold respAckStepInc
    dsimp only
    rw [syncCur_respAliases]
    by_cases hl : 0 < m.packets.length <;> simp [hl]
  refine ⟨?_, ?_, ?_⟩
  · rw [hstep]
    rfl
  · rw [hstep, hra]
    exact mapFind_insert_self _ _ _
  · intro k hk
    rw [hstep, hra, mapFind_insert, if_neg (show ¬ k =
      u32 (p.seq + m.BodySize + p.data.length) from hk)]
    by_cases hp : m.packets = []
    · rw [if_neg (show ¬ 0 < m.packets.length by simp [hp]),
        if_neg (fun hand => hand.1 hp)]
    · rw [if_pos (List.length_pos.mpr hp), mapFind_erase]
      by_cases hq : k = m.responseAck
      · rw [if_pos hq, if_pos ⟨hp, hq⟩]
      · rw [if_neg hq, if_neg (fun hand => hq hand.2)]

/-- Witness for C2: a message with a 2-byte packet and a 3-byte incoming
packet at seq 102 yields `responseAck = 107`, a fresh alias entry, the stale
entry at 999 deleted, the unrelated entry at 555 untouched. -/
theorem c2_witness :
    (respAckStep c2state "A" c2msg (pktW 102 200 [9, 10, 11]) true).2.responseAck = 107 ∧
    mapFind (respAckStep c2state "A" c2msg (pktW 102 200 [9, 10, 11]) true).1.respAliases
      107 = some ⟨5, 200⟩ ∧
    mapFind (respAckStep c2state "A" c2msg (pktW 102 200 [9, 10, 11]) true).1.respAliases
      999 = none ∧
    mapFind (respAckStep c2state "A" c2msg (pktW 102 200 [9, 10, 11]) true).1.respAliases
      555 = some ⟨1, 2⟩ := by
  have h := c2_response_ack c2state "A" c2msg (pktW 102 200 [9, 10, 11])
  refine ⟨?_, ?_, ?_, ?_⟩
  · rw [h.1]; decide
  · have := h.2.1
    rwa [show u32 ((pktW 102 200 [9, 10, 11]).seq +
      ((c2msg.packets.map (fun q => q.data.length)).sum) +
      (pktW 102 200 [9, 10, 11]).data.length) = 107 by decide] at this
  · rw [h.2.2 999 (by decide)]; decide
  · rw [h.2.2 555 (by decide)]; decide

/-! ### C3: request/response back-fill at dispatch -/

/-- C3: when an incoming message `m` is dispatched while
`respWithoutReq[m.responseAck]` names a response message still present in
`messages` with `requestAck = 0`, that response's `requestAck` is set to
`m.ack` and its `requestStart` to `m.start`; if the fixed-up response is then
finished it is dispatched after the current dispatch completes (it follows
`m` on the output channel, no nested re-entry before `m` is delivered),
otherwise it stays in `messages` carrying the back-filled pairing. -/
theorem c3_response_backfill (s : LState) (m resp : TCPMessage) (rid : String)
    (hin : m.isIncoming = true)
    (hrw : mapFind s.respWithoutReq m.responseAck = some rid)
    (hmsg : mapFind (mapErase s.messages m.id) rid = some resp)
    (hzero : resp.requestAck = 0) :
    ((backfill resp m).IsFinished = false →
      (dispatchMessage s m).output = s.output ++ [m] ∧
      mapFind (dispatchMessage s m).messages rid = some (backfill resp m)) ∧
    ((backfill resp m).IsFinished = true →
      resp.isIncoming = false → m.ack ≠ 0 → resp.id = rid →
      (dispatchMessage s m).output = s.output ++ [m, backfill resp m] ∧
      mapFind (dispatchMessage s m).messages rid = none) := by
  constructor
  · intro hfin
    have hstep : dispatchMessage s m =
        { s with ackAliases := mapErase s.ackAliases m.ack,
                 messages := mapInsert (mapErase s.messages m.id) rid (backfill resp m),
                 output := s.output ++ [m] } := by
      unfold dispatchMessage
      rw [dispatchFuel]
      dsimp only
      rw [if_pos hin, hrw]
      dsimp only
      rw [hmsg]
      dsimp only
      rw [if_pos hzero,
        if_neg (show ¬ (backfill resp m).IsFinished = true by
          rw [hfin]; exact Bool.false_ne_true)]
    rw [hstep]
    exact ⟨rfl, mapFind_insert_self _ _ _⟩
  · intro hfin hout hma hid
    have hpos : 0 < s.messages.length := by
      have hmem := mapFind_mem hmsg
      have hmem2 : (rid, resp) ∈ s.messages := List.mem_of_mem_filter hmem
      exact List.length_pos.mpr (List.ne_nil_of_mem hmem2)
    obtain ⟨n, hn⟩ : ∃ n, s.messages.length = n + 1 :=
      ⟨s.messages.length - 1, (Nat.succ_pred_eq_of_pos hpos).symm⟩
    have hstep : dispatchMessage s m =
        { s with ackAliases := mapErase (mapErase s.ackAliases m.ack)
                   (backfill resp m).ack,
                 messages := mapErase
                   (mapInsert (mapErase s.messages m.id) rid (backfill resp m))
                   (backfill resp m).id,
                 respAliases := mapErase s.respAliases (backfill resp m).ack,
                 respWithoutReq := mapErase s.respWithoutReq (backfill resp m).ack,
                 output := (s.output ++ [m]) ++ [backfill resp m] } := by
      unfold dispatchMessage
      rw [dispatchFuel]
      dsimp only
      rw [if_pos hin, hrw]
      dsimp only
      rw [hmsg]
      dsimp only
      rw [if_pos hzero, if_pos hfin, hn, dispatchFuel]
      dsimp only
      rw [if_neg (show ¬ (backfill resp m).isIncoming = true by
          unfold backfill
          dsimp only
          rw [hout]
          exact Bool.false_ne_true),
        if_neg (show ¬ (backfill resp m).requestAck = 0 from hma)]
    rw [hstep]
    constructor
    · rw [List.append_assoc]
      rfl
    · rw [mapFind_erase,
        if_pos (show rid = (backfill resp m).id from hid.symm)]

/-- Witness for C3 at scenario S4: dispatching the incoming request delivers
it, back-fills the outgoing response with `requestAck = 200` and
`requestStart = 7`, and the (finished) response follows it on the channel. -/
theorem c3_witness :
    (dispatchMessage c3state c3msg).output =
      c3state.output ++ [c3msg, backfill c3resp c3msg] ∧
    mapFind (dispatchMessage c3state c3msg).messages "R" = none := by
  exact (c3_response_backfill c3state c3msg c3resp "R" (by decide) (by decide)
    (by decide) (by decide)).2 (by decide) (by decide) (by decide) (by decide)

/-! ### C4: Expect: 100-continue detection and header strip -/

/-- C4: a packet whose payload begins with `POST` and whose bytes at
positions `[len-24, len-4)` spell `Expect: 100-continue` gets
`seqWithData[p.seq + len(p.data)] = p.ack` recorded and its payload rewritten
in place to `data[0:len-24] ++ data[len-2:len]`; any packet not meeting the
condition leaves the payload unchanged by this step (either the step is a
no-op or it panics before mutating anything). -/
theorem c4_expect_continue (s : LState) (mID : String) (m : TCPMessage) (p : TCPPacket) :
    (24 ≤ p.data.length → p.data.take 4 = bPOST →
      (p.data.drop (p.data.length - 24)).take 20 = bExpect100ContinueCheck →
      ∃ s2 m2, expect100Step s mID m p =
        Except.ok (s2, m2,
          { p with data := p.data.take (p.data.length - 24) ++
                           p.data.drop (p.data.length - 2) }) ∧
        mapFind s2.seqWithData (u32 (p.seq + p.data.length)) = some p.ack) ∧
    (¬ (p.data.take 4 = bPOST ∧ 24 ≤ p.data.length ∧
        (p.data.drop (p.data.length - 24)).take 20 = bExpect100ContinueCheck) →
      expect100Step s mID m p = Except.ok (s, m, p) ∨
      expect100Step s mID m p = Except.error ()) := by
  constructor
  · intro hlen hpost hexp
    have h4 : 4 < p.data.length := lt_of_lt_of_le (by norm_num) hlen
    have h24 : ¬ p.data.length < 24 := Nat.not_lt.mpr hlen
    have heq : expect100Step s mID m p =
        Except.ok
          ((mergeLoop ((seqWithDataState s p).messages.map Prod.fst)
              (seqWithDataState s p) mID m (u32 (p.seq + p.data.length)) p.ack).1,
           (mergeLoop ((seqWithDataState s p).messages.map Prod.fst)
              (seqWithDataState s p) mID m (u32 (p.seq + p.data.length)) p.ack).2,
           { p with data := p.data.take (p.data.length - 24) ++
                            p.data.drop (p.data.length - 2) }) := by
      simp only [expect100Step]
      rw [if_pos ⟨h4, hpost⟩, if_neg h24, if_pos hexp]
      rfl
    refine ⟨_, _, heq, ?_⟩
    rw [(mergeLoop_fields _ _ _ _ _ _).1]
    exact mapFind_insert_self _ _ _
  · intro hneg
    by_cases hp : 4 < p.data.length ∧ p.data.take 4 = bPOST
    · by_cases h24 : p.data.length < 24
      · right
        simp only [expect100Step]
        rw [if_pos hp, if_pos h24]
      · left
        have hexp : ¬ (p.data.drop (p.data.length - 24)).take 20 =
            bExpect100ContinueCheck :=
          fun he => hneg ⟨hp.2, Nat.not_lt.mp h24, he⟩
        simp only [expect100Step]
        rw [if_pos hp, if_neg h24, if_neg hexp]
    · left
      simp only [expect100Step]
      rw [if_neg hp]

/-- Witness for C4: the header packet of scenario S2/S3 matches and is
stripped down to `POST / HTTP/1.1\r\n\r\n`; a plain `GET` payload is left
untouched. -/
theorem c4_witness :
    (∃ s2 m2, expect100Step c5state "A" c5cur c5packet =
      Except.ok (s2, m2,
        { c5packet with data := expectData.take (expectData.length - 24) ++
                                expectData.drop (expectData.length - 2) }) ∧
      mapFind s2.seqWithData (u32 (c5packet.seq + c5packet.data.length)) =
        some c5packet.ack) ∧
    (expect100Step c7state "A" c5cur (pktW 1 2 (strBytes "GET / HTTP/1.1")) =
      Except.ok (c7state, c5cur, pktW 1 2 (strBytes "GET / HTTP/1.1")) ∨
     expect100Step c7state "A" c5cur (pktW 1 2 (strBytes "GET / HTTP/1.1")) =
      Except.error ()) := by
  constructor
  · have h := (c4_expect_continue c5state "A" c5cur c5packet).1
      (by decide) (by decide) (by decide)
    exact h
  · exact (c4_expect_continue c7state "A" c5cur
      (pktW 1 2 (strBytes "GET / HTTP/1.1"))).2 (by decide)

/-! ### C5: out-of-order Expect: 100-continue merge -/

/-- Once an alias with the loop's canonical value is recorded, it survives
the rest of the merge loop (later iterations only insert the same value). -/
theorem mergeLoop_ackAlias_stable (keys : List String) (s : LState) (mID : String)
    (mcur : TCPMessage) (seqv pAck : Nat) (a : Nat) :
    mapFind s.ackAliases a = some pAck →
    mapFind (mergeLoop keys s mID mcur seqv pAck).1.ackAliases a = some pAck := by
  induction keys generalizing s mcur with
  | nil => exact fun h => h
  | cons id rest ih =>
    intro h
    unfold mergeLoop
    cases hf : mapFind s.messages id with
    | none => exact ih _ _ h
    | some mEntry =>
      dsimp only
      by_cases hseq : (if id = mID then mcur else mEntry).seq = seqv
      · rw [if_pos hseq]
        apply ih
        have hbase : mapFind
            (mapInsert s.ackAliases (if id = mID then mcur else mEntry).ack pAck) a =
            some pAck := by
          by_cases hx : a = (if id = mID then mcur else mEntry).ack
          · rw [hx, mapFind_insert_self]
          · rw [mapFind_insert_ne _ _ hx]
            exact h
        simpa [syncCur_ackAliases] using hbase
      · rw [if_neg hseq]
        exact ih _ _ h

/-- A message key (other than the current message's slot) that is absent
stays absent through the merge loop. -/
theorem mergeLoop_messages_none (keys : List String) (s : LState) (mID : String)
    (mcur : TCPMessage) (seqv pAck : Nat) (k : String) (hk : k ≠ mID) :
    mapFind s.messages k = none →
    mapFind (mergeLoop keys s mID mcur seqv pAck).1.messages k = none := by
  induction keys generalizing s mcur with
  | nil => exact fun h => h
  | cons id rest ih =>
    intro h
    unfold mergeLoop
    cases hf : mapFind s.messages id with
    | none => exact ih _ _ h
    | some mEntry =>
      dsimp only
      by_cases hseq : (if id = mID then mcur else mEntry).seq = seqv
      · rw [if_pos hseq]
        apply ih
        rw [mapFind_erase]
        by_cases hki : k = id
        · rw [if_pos hki]
        · rw [if_neg hki, syncCur_messages_ne _ _ _ hk]
          exact h
      · rw [if_neg hseq]
        exact ih _ _ h

/-- The current message's packet list only ever grows during the merge loop. -/
theorem mergeLoop_packets_sublist (keys : List String) (s : LState) (mID : String)
    (mcur : TCPMessage) (seqv pAck : Nat) (l : List TCPPacket) :
    l.Sublist mcur.packets →
    l.Sublist (mergeLoop keys s mID mcur seqv pAck).2.packets := by
  induction keys generalizing s mcur with
  | nil => exact fun h => h
  | cons id rest ih =>
    intro h
    unfold mergeLoop
    cases hf : mapFind s.messages id with
    | none => exact ih _ _ h
    | some mEntry =>
      dsimp only
      by_cases hseq : (if id = mID then mcur else mEntry).seq = seqv
      · rw [if_pos hseq]
        apply ih
        exact h.trans (List.sublist_append_left _ _)
      · rw [if_neg hseq]
        exact ih _ _ h

/-- The merge loop processes every standalone message whose `seq` equals the
continuation sequence: its ack is aliased to the packet's, its packets move
into the current message, and its map entry is deleted. -/
theorem mergeLoop_merges (keys : List String) (s : LState) (mID : String)
    (mcur : TCPMessage) (seqv pAck : Nat) (id : String) (mv : TCPMessage)
    (hne : id ≠ mID) (hseq : mv.seq = seqv) :
    id ∈ keys → mapFind s.messages id = some mv →
    mapFind (mergeLoop keys s mID mcur seqv pAck).1.ackAliases mv.ack = some pAck ∧
    mapFind (mergeLoop keys s mID mcur seqv pAck).1.messages id = none ∧
    mv.packets.Sublist (mergeLoop keys s mID mcur seqv pAck).2.packets := by
  induction keys generalizing s mcur with
  | nil => exact fun hmem _ => absurd hmem (List.not_mem_nil id)
  | cons k0 rest ih =>
    intro hmem hfind
    unfold mergeLoop
    by_cases hk0 : k0 = id
    · subst hk0
      rw [hfind]
      dsimp only
      rw [if_neg hne, if_pos hseq]
      refine ⟨?_, ?_, ?_⟩
      · apply mergeLoop_ackAlias_stable
        have hbase : mapFind (mapInsert s.ackAliases mv.ack pAck) mv.ack = some pAck :=
          mapFind_insert_self _ _ _
        simpa [syncCur_ackAliases] using hbase
      · apply mergeLoop_messages_none _ _ _ _ _ _ _ hne
        exact mapFind_erase_self _ _
      · apply mergeLoop_packets_sublist
        exact List.sublist_append_right _ _
    · have hmem' : id ∈ rest := by
        cases hmem with
        | head => exact absurd rfl hk0
        | tail _ h => exact h
      cases hf : mapFind s.messages k0 with
      | none => exact ih _ _ hmem' hfind
      | some mEntry =>
        dsimp only
        by_cases hseq0 : (if k0 = mID then mcur else mEntry).seq = seqv
        · rw [if_pos hseq0]
          apply ih _ _ hmem'
          rw [mapFind_erase, if_neg (fun h => hk0 h.symm),
            syncCur_messages_ne _ _ _ hne]
          exact hfind
        · rw [if_neg hseq0]
          exact ih _ _ hmem' hfind

/-- C5: when the `Expect: 100-continue` header packet `p` arrives after its
continuation already exists as a standalone message `mv` (with
`mv.seq = p.seq + len(p.data)` in 32-bit arithmetic), the assembler records
`ackAliases[mv.ack] = p.ack`, moves every packet of `mv` into the current
message, and deletes `mv` from `messages`. -/
theorem c5_out_of_order_merge (s : LState) (mID : String) (mcur : TCPMessage)
    (p : TCPPacket) (id : String) (mv : TCPMessage)
    (hlen : 24 ≤ p.data.length) (hpost : p.data.take 4 = bPOST)
    (hexp : (p.data.drop (p.data.length - 24)).take 20 = bExpect100ContinueCheck)
    (hfind : mapFind s.messages id = some mv) (hne : id ≠ mID)
    (hseq : mv.seq = u32 (p.seq + p.data.length)) :
    ∃ s2 m2 p2, expect100Step s mID mcur p = Except.ok (s2, m2, p2) ∧
      mapFind s2.ackAliases mv.ack = some p.ack ∧
      mapFind s2.messages id = none ∧
      mv.packets.Sublist m2.packets := by
  have h4 : 4 < p.data.length := lt_of_lt_of_le (by norm_num) hlen
  have h24 : ¬ p.data.length < 24 := Nat.not_lt.mpr hlen
  have heq : expect100Step s mID mcur p =
      Except.ok
        ((mergeLoop ((seqWithDataState s p).messages.map Prod.fst)
            (seqWithDataState s p) mID mcur (u32 (p.seq + p.data.length)) p.ack).1,
         (mergeLoop ((seqWithDataState s p).messages.map Prod.fst)
            (seqWithDataState s p) mID mcur (u32 (p.seq + p.data.length)) p.ack).2,
         { p with data := p.data.take (p.data.length - 24) ++
                          p.data.drop (p.data.length - 2) }) := by
    simp only [expect100Step]
    rw [if_pos ⟨h4, hpost⟩, if_neg h24, if_pos hexp]
    rfl
  have hmem : id ∈ (seqWithDataState s p).messages.map Prod.fst := by
    have : (id, mv) ∈ s.messages := mapFind_mem hfind
    exact List.mem_map_of_mem Prod.fst this
  have hall := mergeLoop_merges ((seqWithDataState s p).messages.map Prod.fst)
    (seqWithDataState s p) mID mcur (u32 (p.seq + p.data.length)) p.ack id mv
    hne hseq hmem hfind
  exact ⟨_, _, _, heq, hall.1, hall.2.1, hall.2.2⟩

/-- Witness for C5 at scenario S3: the standalone continuation message `B`
is merged into the current message and deleted, `ackAliases[501] = 500`. -/
theorem c5_witness :
    ∃ s2 m2 p2, expect100Step c5state "A" c5cur c5packet = Except.ok (s2, m2, p2) ∧
      mapFind s2.ackAliases 501 = some 500 ∧
      mapFind s2.messages "B" = none ∧
      [pktW 1041 501 [9, 9, 9]].Sublist m2.packets := by
  have h := c5_out_of_order_merge c5state "A" c5cur c5packet "B" c5cont
    (by decide) (by decide) (by decide) (by decide) (by decide) (by decide)
  exact h

/-! ### C7: panic recovery does not roll back state -/

/-- A panicking ingest returns exactly the state built by steps 1-5, the
`recover` preserving every mutation made before the panic point. -/
theorem processTCPPacket_panic_eq (s : LState) (p : TCPPacket)
    (h1 : 4 < p.data.length) (h2 : p.data.take 4 = bPOST)
    (h3 : p.data.length < 24) :
    processTCPPacket s p =
      (findCreateStep (seqDataStep s p).1
        (aliasStep (seqDataStep s p).1 (seqDataStep s p).2)
        (decide (p.destPort = s.port))
        (if decide (p.destPort = s.port) then none
         else mapFind (seqDataStep s p).1.respAliases
           (aliasStep (seqDataStep s p).1 (seqDataStep s p).2).ack)).1 := by
  have hd : (aliasStep (seqDataStep s p).1 (seqDataStep s p).2).data = p.data := by
    rw [aliasStep_data, seqDataStep_data]
  have herr := expect100Step_panic
    (findCreateStep (seqDataStep s p).1
      (aliasStep (seqDataStep s p).1 (seqDataStep s p).2)
      (decide (p.destPort = s.port))
      (if decide (p.destPort = s.port) then none
       else mapFind (seqDataStep s p).1.respAliases
         (aliasStep (seqDataStep s p).1 (seqDataStep s p).2).ack)).1
    (messageID (aliasStep (seqDataStep s p).1 (seqDataStep s p).2))
    (findCreateStep (seqDataStep s p).1
      (aliasStep (seqDataStep s p).1 (seqDataStep s p).2)
      (decide (p.destPort = s.port))
      (if decide (p.destPort = s.port) then none
       else mapFind (seqDataStep s p).1.respAliases
         (aliasStep (seqDataStep s p).1 (seqDataStep s p).2).ack)).2
    (aliasStep (seqDataStep s p).1 (seqDataStep s p).2)
    (by rw [hd]; exact h1) (by rw [hd]; exact h2) (by rw [hd]; exact h3)
  unfold processTCPPacket ingestCore
  dsimp only
  rw [herr]

/-- C7 counterexample: the 5-byte `POSTX` packet panics inside ingest, yet
the state maps are not as they were before the ingest: a fresh (empty)
message has been inserted into `messages`. The recovery keeps the engine
alive but performs no rollback. -/
theorem c7_counterexample :
    4 < c7packet.data.length ∧ c7packet.data.length < 24 ∧
    c7packet.data.take 4 = bPOST ∧
    c7state.messages = [] ∧
    (processTCPPacket c7state c7packet).messages =
      [("1.2.3.48020", NewTCPMessage "1.2.3.48020" 10 20 true 0)] := by
  exact ⟨by decide, by decide, by decide, rfl, by rfl⟩

/-- C7 amended: a panicking ingest (a `POST` payload shorter than 24 bytes)
is recovered, the packet is dropped (appended to no message) and the engine
keeps processing, but the state maps are not rolled back to their pre-ingest
contents: the output and `respAliases` are untouched, `seqWithData` at most
loses the entry at `p.seq`, while `messages` may retain a freshly created
empty message (and the corresponding `ackAliases`/`respWithoutReq`
registrations made before the panic persist). -/
theorem c7_panic_partial_state (s : LState) (p : TCPPacket)
    (h1 : 4 < p.data.length) (h2 : p.data.take 4 = bPOST)
    (h3 : p.data.length < 24) :
    (processTCPPacket s p).output = s.output ∧
    (processTCPPacket s p).respAliases = s.respAliases ∧
    ((processTCPPacket s p).seqWithData = s.seqWithData ∨
     (processTCPPacket s p).seqWithData = mapErase s.seqWithData p.seq) ∧
    (∀ id m, mapFind (processTCPPacket s p).messages id = some m →
      mapFind s.messages id = some m ∨
      (m.packets = [] ∧ m.start = p.capturedAt)) := by
  rw [processTCPPacket_panic_eq s p h1 h2 h3]
  refine ⟨?_, ?_, ?_, ?_⟩
  · rw [findCreateStep_output, seqDataStep_output]
  · rw [findCreateStep_respAliases, seqDataStep_respAliases]
  · rw [findCreateStep_seqWithData]
    exact seqDataStep_seqWithData_or s p
  · intro id m hfm
    rcases findCreateStep_messages_find _ _ _ _ _ _ hfm with h | h
    · rw [seqDataStep_messages] at h
      exact Or.inl h
    · refine Or.inr ⟨h.1, ?_⟩
      rw [h.2, aliasStep_capturedAt, seqDataStep_capturedAt]

/-- Witness for the amended C7 at the concrete `POSTX` ingest. -/
theorem c7_witness :
    (processTCPPacket c7state c7packet).output = c7state.output ∧
    (processTCPPacket c7state c7packet).respAliases = c7state.respAliases ∧
    ((processTCPPacket c7state c7packet).seqWithData = c7state.seqWithData ∨
     (processTCPPacket c7state c7packet).seqWithData =
       mapErase c7state.seqWithData c7packet.seq) ∧
    (mapFind (processTCPPacket c7state c7packet).messages "1.2.3.48020" =
        some c6left →
      mapFind c7state.messages "1.2.3.48020" = some c6left ∨
      (c6left.packets = [] ∧ c6left.start = c7packet.capturedAt)) := by
  have h := c7_panic_partial_state c7state c7packet (by decide) (by decide) (by decide)
  exact ⟨h.1, h.2.1, h.2.2.1, h.2.2.2 "1.2.3.48020" c6left⟩

/-! ### C6: expiry sweep and message residency -/

/-- Dispatch never creates message entries: every entry of the result comes
from an entry of the argument state at the same key, with the same `start`
and `id` (the fixup only rewrites `requestAck`/`requestStart`). -/
theorem dispatchFuel_origin (fuel : Nat) (s : LState) (m : TCPMessage)
    (k : String) (mr : TCPMessage) :
    mapFind (dispatchFuel fuel s m).messages k = some mr →
    ∃ m0, mapFind s.messages k = some m0 ∧ m0.start = mr.start ∧ m0.id = mr.id := by
  induction fuel generalizing s m with
  | zero => exact fun h => ⟨mr, h, rfl, rfl⟩
  | succ fuel ih =>
    intro h
    unfold dispatchFuel at h
    dsimp only at h
    by_cases him : m.isIncoming = true
    · rw [if_pos him] at h
      cases hrw : mapFind s.respWithoutReq m.responseAck with
      | none =>
        rw [hrw] at h
        dsimp only at h
        rw [mapFind_erase] at h
        by_cases hki : k = m.id
        · rw [if_pos hki] at h
          cases h
        · rw [if_neg hki] at h
          exact ⟨mr, h, rfl, rfl⟩
      | some respID =>
        rw [hrw] at h
        dsimp only at h
        cases hrm : mapFind (mapErase s.messages m.id) respID with
        | none =>
          rw [hrm] at h
          dsimp only at h
          rw [mapFind_erase] at h
          by_cases hki : k = m.id
          · rw [if_pos hki] at h
            cases h
          · rw [if_neg hki] at h
            exact ⟨mr, h, rfl, rfl⟩
        | some resp =>
          rw [hrm] at h
          dsimp only at h
          have hrespmem : mapFind s.messages respID = some resp := by
            rw [mapFind_erase] at hrm
            by_cases hri : respID = m.id
            · rw [if_pos hri] at hrm
              cases hrm
            · rwa [if_neg hri] at hrm
          by_cases hz : resp.requestAck = 0
          · rw [if_pos hz] at h
            by_cases hfin : (backfill resp m).IsFinished = true
            · rw [if_pos hfin] at h
              obtain ⟨m1, hm1, hst, hid⟩ := ih _ _ h
              rw [mapFind_insert] at hm1
              by_cases hkr : k = respID
              · rw [if_pos hkr] at hm1
                have hm1v : m1 = backfill resp m := Option.some.inj hm1.symm
                refine ⟨resp, by rw [hkr]; exact hrespmem, ?_, ?_⟩
                · rw [← hst, hm1v]
                  rfl
                · rw [← hid, hm1v]
                  rfl
              · rw [if_neg hkr, mapFind_erase] at hm1
                by_cases hki : k = m.id
                · rw [if_pos hki] at hm1
                  cases hm1
                · rw [if_neg hki] at hm1
                  exact ⟨m1, hm1, hst, hid⟩
            · rw [if_neg hfin] at h
              rw [mapFind_insert] at h
              by_cases hkr : k = respID
              · rw [if_pos hkr] at h
                have hmv : mr = backfill resp m := Option.some.inj h.symm
                refine ⟨resp, by rw [hkr]; exact hrespmem, ?_, ?_⟩
                · rw [hmv]
                  rfl
                · rw [hmv]
                  rfl
              · rw [if_neg hkr, mapFind_erase] at h
                by_cases hki : k = m.id
                · rw [if_pos hki] at h
                  cases h
                · rw [if_neg hki] at h
                  exact ⟨mr, h, rfl, rfl⟩
          · rw [if_neg hz] at h
            dsimp only at h
            rw [mapFind_erase] at h
            by_cases hki : k = m.id
            · rw [if_pos hki] at h
              cases h
            · rw [if_neg hki] at h
              exact ⟨mr, h, rfl, rfl⟩
    · rw [if_neg him] at h
      have hmess : mapFind (mapErase s.messages m.id) k = some mr := by
        by_cases hz : m.requestAck = 0
        · rw [if_pos hz] at h
          exact h
        · rw [if_neg hz] at h
          exact h
      rw [mapFind_erase] at hmess
      by_cases hki : k = m.id
      · rw [if_pos hki] at hmess
        cases hmess
      · rw [if_neg hki] at hmess
        exact ⟨mr, hmess, rfl, rfl⟩

/-- A key absent from `messages` stays absent through dispatch. -/
theorem dispatchFuel_absent (fuel : Nat) (s : LState) (m : TCPMessage) (k : String)
    (h : mapFind s.messages k = none) :
    mapFind (dispatchFuel fuel s m).messages k = none := by
  cases hc : mapFind (dispatchFuel fuel s m).messages k with
  | none => rfl
  | some mr =>
    obtain ⟨m0, hm0, _, _⟩ := dispatchFuel_origin _ _ _ _ _ hc
    rw [h] at hm0
    cases hm0

/-- With nonzero fuel (the wrapper always supplies at least one), dispatch
removes the dispatched message's own entry and never reintroduces its key. -/
theorem dispatchFuel_self_removed (fuel : Nat) (s : LState) (m : TCPMessage) :
    mapFind (dispatchFuel (fuel + 1) s m).messages m.id = none := by
  unfold dispatchFuel
  dsimp only
  by_cases him : m.isIncoming = true
  · rw [if_pos him]
    cases hrw : mapFind s.respWithoutReq m.responseAck with
    | none => exact mapFind_erase_self _ _
    | some respID =>
      dsimp only
      cases hrm : mapFind (mapErase s.messages m.id) respID with
      | none => exact mapFind_erase_self _ _
      | some resp =>
        dsimp only
        have hri : m.id ≠ respID := by
          intro hcontra
          rw [← hcontra, mapFind_erase_self] at hrm
          cases hrm
        by_cases hz : resp.requestAck = 0
        · rw [if_pos hz]
          by_cases hfin : (backfill resp m).IsFinished = true
          · rw [if_pos hfin]
            apply dispatchFuel_absent
            show mapFind (mapInsert (mapErase s.messages m.id) respID
              (backfill resp m)) m.id = none
            rw [mapFind_insert_ne _ _ hri, mapFind_erase_self]
          · rw [if_neg hfin]
            show mapFind (mapInsert (mapErase s.messages m.id) respID
              (backfill resp m)) m.id = none
            rw [mapFind_insert_ne _ _ hri, mapFind_erase_self]
        · rw [if_neg hz]
          exact mapFind_erase_self _ _
  · rw [if_neg him]
    by_cases hz : m.requestAck = 0
    · rw [if_pos hz]
      exact mapFind_erase_self _ _
    · rw [if_neg hz]
      exact mapFind_erase_self _ _

/-- Dispatch leaves the listener configuration untouched. -/
theorem dispatchFuel_config (fuel : Nat) (s : LState) (m : TCPMessage) :
    (dispatchFuel fuel s m).messageExpire = s.messageExpire ∧
    (dispatchFuel fuel s m).port = s.port := by
  induction fuel generalizing s m with
  | zero => exact ⟨rfl, rfl⟩
  | succ fuel ih =>
    unfold dispatchFuel
    dsimp only
    by_cases him : m.isIncoming = true
    · rw [if_pos him]
      cases hrw : mapFind s.respWithoutReq m.responseAck with
      | none => exact ⟨rfl, rfl⟩
      | some respID =>
        dsimp only
        cases hrm : mapFind (mapErase s.messages m.id) respID with
        | none => exact ⟨rfl, rfl⟩
        | some resp =>
          dsimp only
          by_cases hz : resp.requestAck = 0
          · rw [if_pos hz]
            by_cases hfin : (backfill resp m).IsFinished = true
            · rw [if_pos hfin]
              exact ih _ _
            · rw [if_neg hfin]
              exact ⟨rfl, rfl⟩
          · rw [if_neg hz]
            exact ⟨rfl, rfl⟩
    · rw [if_neg him]
      by_cases hz : m.requestAck = 0
      · rw [if_pos hz]
        exact ⟨rfl, rfl⟩
      · rw [if_neg hz]
        exact ⟨rfl, rfl⟩

theorem dispatchMessage_origin (s : LState) (m : TCPMessage) (k : String)
    (mr : TCPMessage) :
    mapFind (dispatchMessage s m).messages k = some mr →
    ∃ m0, mapFind s.messages k = some m0 ∧ m0.start = mr.start ∧ m0.id = mr.id :=
  dispatchFuel_origin _ s m k mr

theorem dispatchMessage_self_removed (s : LState) (m : TCPMessage) :
    mapFind (dispatchMessage s m).messages m.id = none :=
  dispatchFuel_self_removed _ s m

theorem dispatchMessage_config (s : LState) (m : TCPMessage) :
    (dispatchMessage s m).messageExpire = s.messageExpire ∧
    (dispatchMessage s m).port = s.port :=
  dispatchFuel_config _ s m

/-- The expiry sweep never creates message entries either. -/
theorem tickFold_origin (keys : List String) (now : Nat) (s : LState) (k : String)
    (mr : TCPMessage) :
    mapFind (tickFold keys now s).messages k = some mr →
    ∃ m0, mapFind s.messages k = some m0 ∧ m0.start = mr.start ∧ m0.id = mr.id := by
  induction keys generalizing s with
  | nil => exact fun h => ⟨mr, h, rfl, rfl⟩
  | cons id rest ih =>
    intro h
    unfold tickFold at h
    cases hf : mapFind s.messages id with
    | none =>
      rw [hf] at h
      exact ih _ h
    | some mm =>
      rw [hf] at h
      dsimp only at h
      by_cases hexp : mm.start + s.messageExpire ≤ now
      · rw [if_pos hexp] at h
        obtain ⟨m1, hm1, hs1, hi1⟩ := ih _ h
        obtain ⟨m0, hm0, hs0, hi0⟩ := dispatchMessage_origin _ _ _ _ hm1
        exact ⟨m0, hm0, hs0.trans hs1, hi0.trans hi1⟩
      · rw [if_neg hexp] at h
        exact ih _ h

theorem tickFold_config (keys : List String) (now : Nat) (s : LState) :
    (tickFold keys now s).messageExpire = s.messageExpire ∧
    (tickFold keys now s).port = s.port := by
  induction keys generalizing s with
  | nil => exact ⟨rfl, rfl⟩
  | cons id rest ih =>
    unfold tickFold
    cases hf : mapFind s.messages id with
    | none => exact ih _
    | some mm =>
      dsimp only
      by_cases hexp : mm.start + s.messageExpire ≤ now
      · rw [if_pos hexp]
        refine ⟨(ih _).1.trans ?_, (ih _).2.trans ?_⟩
        · exact (dispatchMessage_config s mm).1
        · exact (dispatchMessage_config s mm).2
      · rw [if_neg hexp]
        exact ih _

/-- Core of the expiry sweep: after folding over the snapshot keys, every key
not yet visited is in the remaining list or already within its expiry. -/
theorem tickFold_expired_removed (keys : List String) (now : Nat) (s : LState)
    (E : Nat) (hwk : WellKeyed s) (hE : s.messageExpire = E)
    (hinv : ∀ k mrr, mapFind s.messages k = some mrr →
      k ∈ keys ∨ now < mrr.start + E) :
    ∀ k mr, mapFind (tickFold keys now s).messages k = some mr →
      now < mr.start + E := by
  induction keys generalizing s with
  | nil =>
    intro k mr h
    rcases hinv k mr h with hk | hb
    · exact absurd hk (List.not_mem_nil k)
    · exact hb
  | cons id rest ih =>
    intro k mr h
    unfold tickFold at h
    cases hf : mapFind s.messages id with
    | none =>
      rw [hf] at h
      refine ih _ hwk hE ?_ k mr h
      intro k' mrr hk'
      rcases hinv k' mrr hk' with hmem | hb
      · rcases List.mem_cons.mp hmem with heq | hmem'
        · rw [heq, hf] at hk'
          cases hk'
        · exact Or.inl hmem'
      · exact Or.inr hb
    | some mm =>
      rw [hf] at h
      dsimp only at h
      by_cases hexp : mm.start + s.messageExpire ≤ now
      · rw [if_pos hexp] at h
        have hmid : mm.id = id := hwk id mm hf
        refine ih _ ?_ ?_ ?_ k mr h
        · intro k' mrr hk'
          obtain ⟨m0, hm0, _, hi0⟩ := dispatchMessage_origin _ _ _ _ hk'
          rw [← hi0]
          exact hwk _ _ hm0
        · rw [(dispatchMessage_config s mm).1, hE]
        · intro k' mrr hk'
          have hkni : k' ≠ mm.id := by
            intro hcontra
            rw [hcontra, dispatchMessage_self_removed] at hk'
            cases hk'
          obtain ⟨m0, hm0, hs0, _⟩ := dispatchMessage_origin _ _ _ _ hk'
          rcases hinv k' m0 hm0 with hmem | hb
          · rcases List.mem_cons.mp hmem with heq | hmem'
            · rw [← hmid] at heq
              exact absurd heq hkni
            · exact Or.inl hmem'
          · rw [hs0] at hb
            exact Or.inr hb
      · rw [if_neg hexp] at h
        refine ih _ hwk hE ?_ k mr h
        intro k' mrr hk'
        rcases hinv k' mrr hk' with hmem | hb
        · rcases List.mem_cons.mp hmem with heq | hmem'
          · rw [heq, hf] at hk'
            have hmv : mm = mrr := Option.some.inj hk'
            right
            rw [← hmv, ← hE]
            exact Nat.lt_of_not_le hexp
          · exact Or.inl hmem'
        · exact Or.inr hb

/-- Every tick dispatches (and removes) every expired message: after the
sweep at time `now`, no in-progress message has exceeded its expiry. -/
theorem tickSweep_expired (now : Nat) (s : LState) (hwk : WellKeyed s) :
    ∀ k mr, mapFind (tickSweep now s).messages k = some mr →
      now < mr.start + s.messageExpire := by
  apply tickFold_expired_removed _ _ _ _ hwk rfl
  intro k mrr h
  exact Or.inl (List.mem_map_of_mem Prod.fst (mapFind_mem h))

/-- `syncCur` either leaves an entry alone or overwrites the current
message's slot with the carried value. -/
theorem syncCur_messages_find (s : LState) (mID : String) (mv : TCPMessage)
    (k : String) (mr : TCPMessage) :
    mapFind (syncCur s mID mv).messages k = some mr →
    mapFind s.messages k = some mr ∨ (k = mID ∧ mr = mv) := by
  unfold syncCur
  cases hf : mapFind s.messages mID with
  | none => exact fun h => Or.inl h
  | some m0 =>
    intro h
    dsimp only at h
    rw [mapFind_insert] at h
    by_cases hk : k = mID
    · rw [if_pos hk] at h
      exact Or.inr ⟨hk, (Option.some.inj h).symm⟩
    · rw [if_neg hk] at h
      exact Or.inl h

/-- Lookup/create: entries are preserved verbatim, except possibly a fresh
message at `messageID p` stamped with the packet's capture time; the current
message is either the found entry itself or that fresh message; listener
configuration is untouched. -/
theorem findCreateStep_res (s : LState) (p : TCPPacket) (inc : Bool)
    (rr : Option ReqInfo) :
    (∀ k mr, mapFind (findCreateStep s p inc rr).1.messages k = some mr →
      mapFind s.messages k = some mr ∨
      (k = messageID p ∧ mr.start = p.capturedAt ∧ mr.id = messageID p)) ∧
    (mapFind s.messages (messageID p) = some (findCreateStep s p inc rr).2 ∨
      ((findCreateStep s p inc rr).2.start = p.capturedAt ∧
       (findCreateStep s p inc rr).2.id = messageID p)) ∧
    (findCreateStep s p inc rr).1.messageExpire = s.messageExpire ∧
    (findCreateStep s p inc rr).1.port = s.port := by
  unfold findCreateStep
  dsimp only
  cases hf : mapFind s.messages (messageID p) with
  | some m0 =>
    dsimp only
    exact ⟨fun k mr h => Or.inl h, Or.inl rfl, rfl, rfl⟩
  | none =>
    dsimp only
    refine ⟨?_, ?_, ?_, ?_⟩
    · intro k mr h
      by_cases hk : k = messageID p
      · subst hk
        right
        cases inc <;> cases rr <;>
          (rw [mapFind_insert_self_inv h]; exact ⟨rfl, rfl, rfl⟩)
      · left
        cases inc <;> cases rr <;> exact mapFind_insert_ne_inv hk h
    · right
      cases inc <;> cases rr <;> exact ⟨rfl, rfl⟩
    · cases inc <;> cases rr <;> rfl
    · cases inc <;> cases rr <;> rfl

/-- The merge loop preserves the origin of every entry: each surviving entry
is either an untouched original or the current message's slot, whose value
keeps the current message's `start` and `id`. -/
theorem mergeLoop_origin (keys : List String) (s : LState) (mID : String)
    (mcur : TCPMessage) (seqv pAck : Nat) :
    ((mergeLoop keys s mID mcur seqv pAck).2.start = mcur.start ∧
     (mergeLoop keys s mID mcur seqv pAck).2.id = mcur.id) ∧
    (∀ k mr, mapFind (mergeLoop keys s mID mcur seqv pAck).1.messages k = some mr →
      mapFind s.messages k = some mr ∨
      (k = mID ∧ mr.start = mcur.start ∧ mr.id = mcur.id)) := by
  induction keys generalizing s mcur with
  | nil => exact ⟨⟨rfl, rfl⟩, fun k mr h => Or.inl h⟩
  | cons id rest ih =>
    unfold mergeLoop
    cases hf : mapFind s.messages id with
    | none => exact ih s mcur
    | some mEntry =>
      dsimp only
      by_cases hseq : (if id = mID then mcur else mEntry).seq = seqv
      · rw [if_pos hseq]
        refine ⟨⟨(ih _ _).1.1.trans rfl, (ih _ _).1.2.trans rfl⟩, ?_⟩
        intro k mr h
        rcases (ih _ _).2 k mr h with hin | ⟨hk, hst, hid⟩
        · rw [mapFind_erase] at hin
          by_cases hki : k = id
          · rw [if_pos hki] at hin
            cases hin
          · rw [if_neg hki] at hin
            rcases syncCur_messages_find _ _ _ _ _ hin with hin2 | ⟨hk2, hmr2⟩
            · exact Or.inl hin2
            · exact Or.inr ⟨hk2, by rw [hmr2], by rw [hmr2]⟩
        · exact Or.inr ⟨hk, by rw [hst], by rw [hid]⟩
      · rw [if_neg hseq]
        exact ih s mcur

/-- Response-ack bookkeeping keeps the current message's `start` and `id`,
preserves all other entries, and leaves the configuration untouched. -/
theorem respAckStep_origin (s : LState) (mID : String) (mcur : TCPMessage)
    (p : TCPPacket) (inc : Bool) :
    ((respAckStep s mID mcur p inc).2.start = mcur.start ∧
     (respAckStep s mID mcur p inc).2.id = mcur.id) ∧
    (∀ k mr, mapFind (respAckStep s mID mcur p inc).1.messages k = some mr →
      mapFind s.messages k = some mr ∨
      (k = mID ∧ mr.start = mcur.start ∧ mr.id = mcur.id)) ∧
    (respAckStep s mID mcur p inc).1.messageExpire = s.messageExpire ∧
    (respAckStep s mID mcur p inc).1.port = s.port := by
  cases inc with
  | false => exact ⟨⟨rfl, rfl⟩, fun k mr h => Or.inl h, rfl, rfl⟩
  | true =>
    have hstep : respAckStep s mID mcur p true = respAckStepInc s mID mcur p :=
      if_pos rfl
    rw [hstep]
    unfold respAckStepInc
    dsimp only
    by_cases hl : 0 < mcur.packets.length
    · rw [if_pos hl]
      refine ⟨⟨rfl, rfl⟩, ?_, ?_, ?_⟩
      · intro k mr h
        rcases syncCur_messages_find _ _ _ _ _ h with hin | ⟨hk, hmr⟩
        · exact Or.inl hin
        · exact Or.inr ⟨hk, by rw [hmr], by rw [hmr]⟩
      · rw [syncCur_messageExpire]
      · rw [syncCur_port]
    · rw [if_neg hl]
      refine ⟨⟨rfl, rfl⟩, ?_, ?_, ?_⟩
      · intro k mr h
        rcases syncCur_messages_find _ _ _ _ _ h with hin | ⟨hk, hmr⟩
        · exact Or.inl hin
        · exact Or.inr ⟨hk, by rw [hmr], by rw [hmr]⟩
      · rw [syncCur_messageExpire]
      · rw [syncCur_port]

/-- Appending the packet keeps the current message's `start` and `id`,
preserves all other entries, and leaves the configuration untouched. -/
theorem addPacketStep_origin (s : LState) (mID : String) (mcur : TCPMessage)
    (p : TCPPacket) :
    ((addPacketStep s mID mcur p).2.start = mcur.start ∧
     (addPacketStep s mID mcur p).2.id = mcur.id) ∧
    (∀ k mr, mapFind (addPacketStep s mID mcur p).1.messages k = some mr →
      mapFind s.messages k = some mr ∨
      (k = mID ∧ mr.start = mcur.start ∧ mr.id = mcur.id)) ∧
    (addPacketStep s mID mcur p).1.messageExpire = s.messageExpire ∧
    (addPacketStep s mID mcur p).1.port = s.port := by
  unfold addPacketStep TCPMessage.AddPacket
  dsimp only
  refine ⟨⟨rfl, rfl⟩, ?_, ?_, ?_⟩
  · intro k mr h
    rcases syncCur_messages_find _ _ _ _ _ h with hin | ⟨hk, hmr⟩
    · exact Or.inl hin
    · exact Or.inr ⟨hk, by rw [hmr], by rw [hmr]⟩
  · rw [syncCur_messageExpire]
  · rw [syncCur_port]

/-- A successful `Expect: 100-continue` step preserves the current message's
`start` and `id`, every other entry's value, and the configuration. -/
theorem expect100Step_res (s : LState) (mID : String) (mcur : TCPMessage)
    (p : TCPPacket) (s3 : LState) (m3 : TCPMessage) (p3 : TCPPacket)
    (hex : expect100Step s mID mcur p = Except.ok (s3, m3, p3)) :
    (m3.start = mcur.start ∧ m3.id = mcur.id) ∧
    (∀ k mr, mapFind s3.messages k = some mr →
      mapFind s.messages k = some mr ∨
      (k = mID ∧ mr.start = mcur.start ∧ mr.id = mcur.id)) ∧
    s3.messageExpire = s.messageExpire ∧ s3.port = s.port := by
  unfold expect100Step at hex
  by_cases h1 : 4 < p.data.length ∧ p.data.take 4 = bPOST
  · rw [if_pos h1] at hex
    by_cases h2 : p.data.length < 24
    · rw [if_pos h2] at hex
      cases hex
    · rw [if_neg h2] at hex
      by_cases h3 : (p.data.drop (p.data.length - 24)).take 20 = bExpect100ContinueCheck
      · rw [if_pos h3] at hex
        dsimp only at hex
        have hinj := Except.ok.inj hex
        have hs3 : (mergeLoop ((seqWithDataState s p).messages.map Prod.fst)
            (seqWithDataState s p) mID mcur (u32 (p.seq + p.data.length)) p.ack).1 =
            s3 := congrArg Prod.fst hinj
        have hm3 : (mergeLoop ((seqWithDataState s p).messages.map Prod.fst)
            (seqWithDataState s p) mID mcur (u32 (p.seq + p.data.length)) p.ack).2 =
            m3 := congrArg (fun t => t.2.1) hinj
        subst hs3
        subst hm3
        have hml := mergeLoop_origin ((seqWithDataState s p).messages.map Prod.fst)
          (seqWithDataState s p) mID mcur (u32 (p.seq + p.data.length)) p.ack
        refine ⟨hml.1, ?_, ?_, ?_⟩
        · exact hml.2
        · exact (mergeLoop_fields _ _ _ _ _ _).2.2.2.2.2
        · exact (mergeLoop_fields _ _ _ _ _ _).2.2.2.2.1
      · rw [if_neg h3] at hex
        have hinj := Except.ok.inj hex
        have hs3 : s = s3 := congrArg Prod.fst hinj
        have hm3 : mcur = m3 := congrArg (fun t => t.2.1) hinj
        subst hs3
        subst hm3
        exact ⟨⟨rfl, rfl⟩, fun k mr h => Or.inl h, rfl, rfl⟩
  · rw [if_neg h1] at hex
    have hinj := Except.ok.inj hex
    have hs3 : s = s3 := congrArg Prod.fst hinj
    have hm3 : mcur = m3 := congrArg (fun t => t.2.1) hinj
    subst hs3
    subst hm3
    exact ⟨⟨rfl, rfl⟩, fun k mr h => Or.inl h, rfl, rfl⟩

/-- The tail steps of ingest: every surviving entry either descends from an
entry of the incoming state (same key, `start`, `id`) or sits in the current
message's slot with the current message's `start` and `id`. -/
theorem ingestTail_origin (s : LState) (mID : String) (mcur : TCPMessage)
    (p : TCPPacket) (inc : Bool) :
    (∀ k mr, mapFind (ingestTail s mID mcur p inc).messages k = some mr →
      (∃ m0, mapFind s.messages k = some m0 ∧ m0.start = mr.start ∧ m0.id = mr.id) ∨
      (k = mID ∧ mr.start = mcur.start ∧ mr.id = mcur.id)) ∧
    (ingestTail s mID mcur p inc).messageExpire = s.messageExpire ∧
    (ingestTail s mID mcur p inc).port = s.port := by
  unfold ingestTail
  dsimp only
  have hrb := respAckStep_origin s mID mcur p inc
  have hap := addPacketStep_origin (respAckStep s mID mcur p inc).1 mID
    (respAckStep s mID mcur p inc).2 p
  by_cases hfin : (addPacketStep (respAckStep s mID mcur p inc).1 mID
      (respAckStep s mID mcur p inc).2 p).2.IsFinished = true
  · rw [if_pos hfin]
    refine ⟨?_, ?_, ?_⟩
    · intro k mr h
      obtain ⟨m1, hm1, hs1, hi1⟩ := dispatchMessage_origin _ _ _ _ h
      rcases hap.2.1 k m1 hm1 with hin | ⟨hk, hst, hid⟩
      · rcases hrb.2.1 k m1 hin with hin2 | ⟨hk2, hst2, hid2⟩
        · exact Or.inl ⟨m1, hin2, hs1, hi1⟩
        · exact Or.inr ⟨hk2, by rw [← hs1, hst2], by rw [← hi1, hid2]⟩
      · refine Or.inr ⟨hk, ?_, ?_⟩
        · rw [← hs1, hst, hrb.1.1]
        · rw [← hi1, hid, hrb.1.2]
    · rw [(dispatchMessage_config _ _).1, hap.2.2.1, hrb.2.2.1]
    · rw [(dispatchMessage_config _ _).2, hap.2.2.2, hrb.2.2.2]
  · rw [if_neg hfin]
    refine ⟨?_, ?_, ?_⟩
    · intro k mr h
      rcases hap.2.1 k mr h with hin | ⟨hk, hst, hid⟩
      · rcases hrb.2.1 k mr hin with hin2 | ⟨hk2, hst2, hid2⟩
        · exact Or.inl ⟨mr, hin2, rfl, rfl⟩
        · exact Or.inr ⟨hk2, hst2, hid2⟩
      · refine Or.inr ⟨hk, ?_, ?_⟩
        · rw [hst, hrb.1.1]
        · rw [hid, hrb.1.2]
    · rw [hap.2.2.1, hrb.2.2.1]
    · rw [hap.2.2.2, hrb.2.2.2]

/-- Steps 5-9 of ingest: every surviving entry descends from an entry of the
pre-ingest state or is stamped with the packet's capture time under its own
key; the configuration is preserved. -/
theorem ingestCore_origin (s1 : LState) (p2 : TCPPacket) (inc : Bool)
    (rr : Option ReqInfo) :
    (∀ k mr, mapFind (ingestCore s1 p2 inc rr).messages k = some mr →
      (∃ m0, mapFind s1.messages k = some m0 ∧ m0.start = mr.start ∧ m0.id = mr.id) ∨
      (mr.start = p2.capturedAt ∧ mr.id = k)) ∧
    (ingestCore s1 p2 inc rr).messageExpire = s1.messageExpire ∧
    (ingestCore s1 p2 inc rr).port = s1.port := by
  unfold ingestCore
  dsimp only
  have hfc := findCreateStep_res s1 p2 inc rr
  cases hex : expect100Step (findCreateStep s1 p2 inc rr).1 (messageID p2)
      (findCreateStep s1 p2 inc rr).2 p2 with
  | error e =>
    refine ⟨?_, hfc.2.2.1, hfc.2.2.2⟩
    intro k mr h
    rcases hfc.1 k mr h with hin | ⟨hk, hst, hid⟩
    · exact Or.inl ⟨mr, hin, rfl, rfl⟩
    · exact Or.inr ⟨hst, by rw [hid, hk]⟩
  | ok val =>
    obtain ⟨s3, m3, p3⟩ := val
    have hexr := expect100Step_res _ _ _ _ _ _ _ hex
    have htail := ingestTail_origin s3 (messageID p2) m3 p3 inc
    refine ⟨?_, ?_, ?_⟩
    · intro k mr h
      rcases htail.1 k mr h with hin | ⟨hk, hst, hid⟩
      · obtain ⟨m1, hm1, hs1, hi1⟩ := hin
        rcases hexr.2.1 k m1 hm1 with hin2 | ⟨hk2, hst2, hid2⟩
        · rcases hfc.1 k m1 hin2 with hin3 | ⟨hk3, hst3, hid3⟩
          · exact Or.inl ⟨m1, hin3, hs1, hi1⟩
          · exact Or.inr ⟨by rw [← hs1, hst3], by rw [← hi1, hid3, hk3]⟩
        · rcases hfc.2.1 with hcur | ⟨hcst, hcid⟩
          · exact Or.inl ⟨(findCreateStep s1 p2 inc rr).2, by rw [hk2]; exact hcur,
              by rw [← hs1, hst2], by rw [← hi1, hid2]⟩
          · exact Or.inr ⟨by rw [← hs1, hst2, hcst],
              by rw [← hi1, hid2, hcid, hk2]⟩
      · rcases hfc.2.1 with hcur | ⟨hcst, hcid⟩
        · refine Or.inl ⟨(findCreateStep s1 p2 inc rr).2, ?_, ?_, ?_⟩
          · rw [hk]
            exact hcur
          · rw [hst, hexr.1.1]
          · rw [hid, hexr.1.2]
        · refine Or.inr ⟨?_, ?_⟩
          · rw [hst, hexr.1.1, hcst]
          · rw [hid, hexr.1.2, hcid, hk]
    · rw [htail.2.1, hexr.2.2.1, hfc.2.2.1]
    · rw [htail.2.2, hexr.2.2.2, hfc.2.2.2]

/-- One packet ingest: every surviving in-progress message either descends
from a pre-ingest entry (same key, `start` and `id`) or was created by this
ingest, stamped with the packet's capture time under its own identity; the
listener configuration is untouched. -/
theorem processTCPPacket_origin (s : LState) (p : TCPPacket) :
    (∀ k mr, mapFind (processTCPPacket s p).messages k = some mr →
      (∃ m0, mapFind s.messages k = some m0 ∧ m0.start = mr.start ∧ m0.id = mr.id) ∨
      (mr.start = p.capturedAt ∧ mr.id = k)) ∧
    (processTCPPacket s p).messageExpire = s.messageExpire ∧
    (processTCPPacket s p).port = s.port := by
  unfold processTCPPacket
  dsimp only
  have hcore := ingestCore_origin (seqDataStep s p).1
    (aliasStep (seqDataStep s p).1 (seqDataStep s p).2)
    (decide (p.destPort = s.port))
    (if decide (p.destPort = s.port) = true then none
     else mapFind (seqDataStep s p).1.respAliases
       (aliasStep (seqDataStep s p).1 (seqDataStep s p).2).ack)
  have hsm : (seqDataStep s p).1.messages = s.messages := seqDataStep_messages s p
  have hca : (aliasStep (seqDataStep s p).1 (seqDataStep s p).2).capturedAt =
      p.capturedAt := by
    rw [aliasStep_capturedAt, seqDataStep_capturedAt]
  have hse : (seqDataStep s p).1.messageExpire = s.messageExpire := by
    unfold seqDataStep
    cases mapFind s.seqWithData p.seq <;> rfl
  have hsp : (seqDataStep s p).1.port = s.port := by
    unfold seqDataStep
    cases mapFind s.seqWithData p.seq <;> rfl
  refine ⟨?_, ?_, ?_⟩
  · intro k mr h
    rcases hcore.1 k mr h with hin | ⟨hst, hid⟩
    · rw [hsm] at hin
      exact Or.inl hin
    · rw [hca] at hst
      exact Or.inr ⟨hst, hid⟩
  · rw [hcore.2.1, hse]
  · rw [hcore.2.2, hsp]

/-- Every `listen`-loop event preserves well-keyedness of `messages`. -/
theorem stepEvent_wellKeyed (s : LState) (e : Nat × LEvent) (hwk : WellKeyed s) :
    WellKeyed (stepEvent s e) := by
  cases e with
  | mk t ev =>
    cases ev with
    | ingest p =>
      intro k mr h
      rcases (processTCPPacket_origin s _).1 k mr h with ⟨m0, hm0, _, hi0⟩ | ⟨_, hid⟩
      · rw [← hi0]
        exact hwk _ _ hm0
      · exact hid
    | tick =>
      intro k mr h
      obtain ⟨m0, hm0, _, hi0⟩ := tickFold_origin _ _ _ _ _ h
      rw [← hi0]
      exact hwk _ _ hm0

/-- Every `listen`-loop event preserves the configured expiry. -/
theorem stepEvent_expire (s : LState) (e : Nat × LEvent) :
    (stepEvent s e).messageExpire = s.messageExpire := by
  cases e with
  | mk t ev =>
    cases ev with
    | ingest p => exact (processTCPPacket_origin s _).2.1
    | tick => exact (tickFold_config _ _ _).1

/-- A start-time lower bound established at time `c` survives the rest of a
trace whose events all happen at or after `c`. -/
theorem runTrace_startsBound (tr : List (Nat × LEvent)) (s : LState) (c E : Nat)
    (hE : s.messageExpire = E) (hEpos : 0 < E)
    (htimes : ∀ e ∈ tr, c ≤ e.1)
    (hsb : ∀ k mr, mapFind s.messages k = some mr → c < mr.start + E) :
    ∀ k mr, mapFind (runTrace s tr).messages k = some mr → c < mr.start + E := by
  induction tr generalizing s with
  | nil => exact hsb
  | cons e rest ih =>
    refine ih (stepEvent s e) ?_ ?_ ?_
    · rw [stepEvent_expire, hE]
    · exact fun e' he' => htimes e' (List.mem_cons_of_mem _ he')
    · intro k mr h
      cases e with
      | mk t ev =>
        cases ev with
        | ingest p =>
          rcases (processTCPPacket_origin s _).1 k mr h with ⟨m0, hm0, hs0, _⟩ |
            ⟨hst, _⟩
          · rw [← hs0]
            exact hsb _ _ hm0
          · have hct : c ≤ t := htimes (t, LEvent.ingest p) (List.mem_cons_self _ _)
            have hst' : mr.start = t := hst
            rw [hst']
            omega
        | tick =>
          obtain ⟨m0, hm0, hs0, _⟩ := tickFold_origin _ _ _ _ _ h
          rw [← hs0]
          exact hsb _ _ hm0

/-- Along a time-ordered trace, any message still in progress at the end was
started strictly within `messageExpire` of every tick of the trace. -/
theorem runTrace_tick_bound (tr : List (Nat × LEvent)) (s : LState) (E : Nat)
    (hpw : List.Pairwise (fun a b => a.1 ≤ b.1) tr)
    (hwk : WellKeyed s) (hE : s.messageExpire = E) (hEpos : 0 < E) :
    ∀ t, (t, LEvent.tick) ∈ tr →
    ∀ k mr, mapFind (runTrace s tr).messages k = some mr → t < mr.start + E := by
  induction tr generalizing s with
  | nil =>
    intro t ht
    exact absurd ht (List.not_mem_nil _)
  | cons e rest ih =>
    intro t ht k mr h
    rcases List.mem_cons.mp ht with heq | hmem
    · subst heq
      refine runTrace_startsBound rest (stepEvent s (t, LEvent.tick)) t E ?_ hEpos
        ?_ ?_ k mr h
      · rw [stepEvent_expire, hE]
      · exact fun e' he' => (List.pairwise_cons.mp hpw).1 e' he'
      · intro k' mr' h'
        have hb := tickSweep_expired t s hwk k' mr' h'
        rw [hE] at hb
        exact hb
    · exact ih (stepEvent s e) (List.pairwise_cons.mp hpw).2
        (stepEvent_wellKeyed _ _ hwk) (by rw [stepEvent_expire, hE]) t hmem k mr h

/-- C6: every expiry tick dispatches, and thereby removes from `messages`,
every message whose residency has reached `messageExpire`, complete or not;
consequently, along any time-ordered trace of ingests and ticks in which a
tick fires within every window of length `interval`, no message remains in
`messages` past `messageExpire + interval` beyond its start. -/
theorem c6_expiry (s : LState) (now : Nat) (tr : List (Nat × LEvent))
    (T interval : Nat) (hwk : WellKeyed s)
    (hpw : List.Pairwise (fun a b => a.1 ≤ b.1) tr)
    (hEpos : 0 < s.messageExpire)
    (hticks : ∀ x, x + interval ≤ T →
      ∃ t, (t, LEvent.tick) ∈ tr ∧ x ≤ t ∧ t ≤ x + interval) :
    (∀ k mr, mapFind (tickSweep now s).messages k = some mr →
      now < mr.start + s.messageExpire) ∧
    (∀ k mr, mapFind (runTrace s tr).messages k = some mr →
      T < mr.start + s.messageExpire + interval) := by
  refine ⟨tickSweep_expired now s hwk, ?_⟩
  intro k mr h
  by_contra hc
  push_neg at hc
  obtain ⟨t, htmem, htlo, hthi⟩ := hticks (mr.start + s.messageExpire) (by omega)
  have hb := runTrace_tick_bound tr s s.messageExpire hpw hwk rfl hEpos t htmem k mr h
  omega

/-- Witness for C6: the sweep at t = 15 removes the expired message of
`c6state` (expiry 10, started at 0); and along the concrete trace of one
panicking ingest at t = 0 and a tick at t = 5, the surviving empty message
respects the `expire + interval` bound with `T = 5, interval = 12`. -/
theorem c6_witness :
    mapFind (tickSweep 15 c6state).messages "id1" ≠ some c6old ∧
    mapFind (runTrace (initialState 80 10) c6trace).messages "1.2.3.48020" =
      some c6left ∧
    5 < c6left.start + (initialState 80 10).messageExpire + 12 := by
  have hwk1 : WellKeyed c6state := by
    intro k m h
    by_cases hk : k = "id1"
    · subst hk
      have hm : c6old = m := Option.some.inj h
      rw [← hm]
      rfl
    · have hnone : mapFind c6state.messages k = none := by
        show mapFind [("id1", c6old)] k = none
        unfold mapFind
        rw [if_neg (show ¬ k = ("id1", c6old).1 from hk)]
        rfl
      rw [hnone] at h
      cases h
  have hwk0 : WellKeyed (initialState 80 10) := fun k m h => Option.noConfusion h
  have hpw0 : List.Pairwise (fun a b : Nat × LEvent => a.1 ≤ b.1) c6trace := by
    unfold c6trace
    refine List.Pairwise.cons ?_ (List.pairwise_singleton _ _)
    intro e he
    rw [List.mem_singleton.mp he]
    exact Nat.zero_le _
  refine ⟨?_, by decide, ?_⟩
  · intro h
    have hb := (c6_expiry c6state 15 [] 0 1 hwk1 List.Pairwise.nil (by decide)
      (fun x hx => absurd hx (by omega))).1 "id1" c6old h
    exact absurd hb (by decide)
  · exact (c6_expiry (initialState 80 10) 0 c6trace 5 12 hwk0 hpw0 (by decide)
      (fun x hx => absurd hx (by omega))).2 "1.2.3.48020" c6left (by decide)

end GorRawSocket
